import Mathlib

/-!
# main.js: click-handler wiring of the trading-platform page

A shallow embedding of `app/static/js/main.js` together with the small part
of the browser the script talks to: the document as the sequence of its
elements in document order, the event-listener table, `console.log`,
`alert`, and the dispatch of `DOMContentLoaded` and `click`.

Elements are identified by their position in document order and know
their parent.  Function expressions evaluate to fresh function objects, so
a closure carries the number of the object next to the code it runs.  The
script registers its listeners without options, so they run in the bubble
phase: a click is delivered to the clicked element, then to each of its
ancestors, then to the document.  The click handlers take no event object
and cancel nothing, so the default action of the activated element (a link
navigates, a submit control sends its form) follows the dispatch.
-/

namespace MainJs

/-! ## Data model -/

/-- What the browser does by itself when an element is activated. -/
inductive DefaultAction where
  /-- nothing: a plain element, or a button outside any form -/
  | nothing
  /-- a link: the window navigates to the address -/
  | navigate (url : String)
  /-- a submit control: the form is sent to the address and the window
  navigates there -/
  | submit (url : String)
deriving DecidableEq, Repr

/-- An element of the host page: its `id` attribute, which it may lack and
which is all the script looks at, the position of its parent element (none
for an element directly under the document root), and its default action. -/
structure Element where
  id : Option String
  parent : Option Nat
  action : DefaultAction
deriving DecidableEq, Repr

/-- The event types the script listens to. -/
inductive EventType where
  | DOMContentLoaded
  | click
deriving DecidableEq, Repr

/-- What a listener can be registered on: the document itself, or the
element at a given position in document order. -/
inductive Target where
  | document
  | node (index : Nat)
deriving DecidableEq, Repr

/-- The three function expressions of main.js: the callback of line 2, the
click callback of line 8 and the click callback of line 16. -/
inductive FnCode where
  | setup
  | addToCartClick
  | checkoutClick
deriving DecidableEq, Repr

/-- A function object: the result of evaluating a function expression. -/
structure Closure where
  fnId : Nat
  code : FnCode
deriving DecidableEq, Repr

/-- One entry of the event-listener table. -/
structure Listener where
  target : Target
  type : EventType
  callback : Closure
deriving DecidableEq, Repr

/-- Exceptions the modelled fragment can raise. -/
inductive JsError where
  | typeError (msg : String)
deriving DecidableEq, Repr

/-- The state of one loaded page, as far as the script can observe or
change it. -/
structure PageState where
  /-- the elements, in document order -/
  document : List Element
  /-- the event-listener table, in registration order -/
  listeners : List Listener
  /-- number of the next function object to be created -/
  nextFn : Nat
  /-- lines written with `console.log` -/
  console : List String
  /-- messages shown with `alert` -/
  alerts : List String
  /-- the address the window shows -/
  location : String
  /-- network requests issued -/
  requests : List String
  /-- client-side storage (where a cart would live) -/
  storage : List (String × String)
  /-- exceptions that escaped a script or a listener -/
  uncaught : List JsError
deriving DecidableEq, Repr

/-- The outcome of running a piece of script: the state it left behind and
the exception it threw, if any. -/
structure Completion where
  state : PageState
  thrown : Option JsError
deriving DecidableEq, Repr

/-- Sequencing of statements: what follows runs only when nothing was
thrown. -/
def Completion.andThen (c : Completion) (k : PageState → Completion) : Completion :=
  match c.thrown with
  | none => k c.state
  | some _ => c

/-- A page right after parsing: nothing registered, nothing shown. -/
def loadPage (doc : List Element) : PageState :=
  { document := doc, listeners := [], nextFn := 0, console := [], alerts := [],
    location := "", requests := [], storage := [], uncaught := [] }

/-! ## The three strings of the script -/

def loadedMsg : String := "东南大学校园二手交易平台已加载"

def addedMsg : String := "商品已添加到购物车"

def checkoutMsg : String := "正在跳转到结算页面"

/-! ## Browser operations used by the script -/

/-- Appends a line to the console: `console.log(msg)`. -/
def consoleLog (s : PageState) (msg : String) : PageState :=
  { s with console := s.console ++ [msg] }

/-- Shows a message: `alert(msg)`. -/
def alert (s : PageState) (msg : String) : PageState :=
  { s with alerts := s.alerts ++ [msg] }

/-- Evaluates a function expression: a fresh function object. -/
def newFunction (s : PageState) (code : FnCode) : Closure × PageState :=
  (⟨s.nextFn, code⟩, { s with nextFn := s.nextFn + 1 })

/-- Does the element carry this id. -/
def hasId (e : Element) (id : String) : Bool :=
  e.id == some id

/-- Positions, in document order, of the elements carrying the id. -/
def elementsWithId (doc : List Element) (id : String) : List Nat :=
  (List.range doc.length).filter fun i =>
    match doc[i]? with
    | some e => hasId e id
    | none => false

/-- The call `document.querySelectorAll(selector)` for an ID selector
`#id`: every element carrying that id, in document order.  Other selectors
are not used by the script and match nothing here. -/
def querySelectorAll (doc : List Element) (selector : String) : List Nat :=
  match selector.data with
  | '#' :: id => elementsWithId doc (String.mk id)
  | _ => []

/-- The call `document.getElementById(id)`: the first element in document
order carrying the id, or null. -/
def getElementById (doc : List Element) (id : String) : Option Nat :=
  (elementsWithId doc id).head?

/-- Is a listener with the same target, type and callback object already
in the table. -/
def alreadyListening (s : PageState) (t : Target) (type : EventType) (callback : Closure) : Bool :=
  s.listeners.any fun l => l.target == t && l.type == type && l.callback.fnId == callback.fnId

/-- The call `target.addEventListener(type, callback)`.  On null it throws a
TypeError; a listener with the same callback object already registered for
the type on the target is not added again; otherwise the listener is
appended to the table. -/
def addEventListener (s : PageState) (target : Option Target) (type : EventType)
    (callback : Closure) : Completion :=
  match target with
  | none => ⟨s, some (.typeError "Cannot read properties of null")⟩
  | some t =>
    if alreadyListening s t type callback then ⟨s, none⟩
    else ⟨{ s with listeners := s.listeners ++ [⟨t, type, callback⟩] }, none⟩

/-- The call `list.forEach(f)`: `f` on each entry in order, stopping at the
first exception. -/
def forEach (f : Nat → PageState → Completion) : List Nat → PageState → Completion
  | [], s => ⟨s, none⟩
  | x :: xs, s => (f x s).andThen (forEach f xs)

/-! ## The script -/

/-- Lines 7-11: the arrow function passed to `forEach`. -/
def bindAddToCart (button : Nat) (s : PageState) : Completion :=
  let (f, s1) := newFunction s .addToCartClick
  addEventListener s1 (some (.node button)) .click f

/-- Lines 3-19: the body of the `DOMContentLoaded` callback. -/
def setupBody (s : PageState) : Completion :=
  let s1 := consoleLog s loadedMsg
  let addToCartButtons := querySelectorAll s1.document "#add-to-cart"
  (forEach bindAddToCart addToCartButtons s1).andThen fun s2 =>
    let checkoutButton := getElementById s2.document "checkout"
    if checkoutButton.isSome then
      let (f, s3) := newFunction s2 .checkoutClick
      addEventListener s3 (checkoutButton.map .node) .click f
    else
      ⟨s2, none⟩

/-- Calls a function object of the script. -/
def callFn : FnCode → PageState → Completion
  | .setup, s => setupBody s
  | .addToCartClick, s => ⟨alert s addedMsg, none⟩
  | .checkoutClick, s => ⟨alert s checkoutMsg, none⟩

/-- Line 2, the only top-level statement: registers the setup callback for
`DOMContentLoaded` on the document. -/
def evalScript (s : PageState) : Completion :=
  let (f, s1) := newFunction s .setup
  addEventListener s1 (some .document) .DOMContentLoaded f

/-! ## Event dispatch -/

/-- An exception that escapes a script or a listener is reported and
execution goes on. -/
def reportUncaught (c : Completion) : PageState :=
  match c.thrown with
  | none => c.state
  | some e => { c.state with uncaught := c.state.uncaught ++ [e] }

/-- The listeners registered for an event type on a target, in
registration order. -/
def listenersOn (s : PageState) (t : Target) (type : EventType) : List Listener :=
  s.listeners.filter fun l => l.target == t && l.type == type

/-- Runs the given listeners one after the other. -/
def runListeners : List Listener → PageState → PageState
  | [], s => s
  | l :: ls, s => runListeners ls (reportUncaught (callFn l.callback.code s))

/-- The ancestors of the element at position `i`, nearest first, following
parent links at most `fuel` times.  In document order a parent precedes its
children, so a parent link that does not point backwards is no parent. -/
def ancestorsFrom (doc : List Element) : Nat → Nat → List Nat
  | 0, _ => []
  | fuel + 1, i =>
    match doc[i]? with
    | some e =>
      match e.parent with
      | some p => if p < i then p :: ancestorsFrom doc fuel p else []
      | none => []
    | none => []

/-- The ancestors of the element at position `i`, nearest first.  Each
ancestor lies before its child, so `i` links are enough. -/
def ancestors (doc : List Element) (i : Nat) : List Nat :=
  ancestorsFrom doc i i

/-- The path an event dispatched at a target travels in the bubble phase:
the target, its ancestors from the nearest outwards, the document. -/
def eventPath (doc : List Element) : Target → List Target
  | .document => [.document]
  | .node i => (i :: ancestors doc i).map Target.node ++ [.document]

/-- Invokes the listeners along a path: at each stop the listeners
registered there for the type are run in registration order. -/
def dispatchAlong (type : EventType) : List Target → PageState → PageState
  | [], s => s
  | t :: rest, s => dispatchAlong type rest (runListeners (listenersOn s t type) s)

/-- Delivers an event: the path is fixed when the dispatch starts and the
listeners along it are invoked.  No listener of the script stops the
propagation. -/
def dispatchEvent (s : PageState) (t : Target) (type : EventType) : PageState :=
  dispatchAlong type (eventPath s.document t) s

/-- The default action among the given elements, nearest first: the first
one that has any. -/
def firstAction (doc : List Element) : List Nat → DefaultAction
  | [] => .nothing
  | i :: rest =>
    match doc[i]? with
    | some e =>
      match e.action with
      | .nothing => firstAction doc rest
      | .navigate url => .navigate url
      | .submit url => .submit url
    | none => firstAction doc rest

/-- The default action of a click on the element at position `i`: that of
the element itself or else of its nearest ancestor that has one. -/
def activationOf (doc : List Element) (i : Nat) : DefaultAction :=
  firstAction doc (i :: ancestors doc i)

/-- Carries out a default action: a navigation changes the address the
window shows, a form submission also issues the request.  What becomes of
the loaded page after a navigation is not the script's doing and is left
out. -/
def performDefault (s : PageState) : DefaultAction → PageState
  | .nothing => s
  | .navigate url => { s with location := url }
  | .submit url => { s with requests := s.requests ++ [url], location := url }

/-- What can happen to a loaded page. -/
inductive Event where
  | scriptEvaluated
  | domContentLoaded
  | click (index : Nat)
deriving DecidableEq, Repr

/-- One step of the page.  A click is dispatched and, as no handler of the
script cancels it, followed by the default action. -/
def step (s : PageState) : Event → PageState
  | .scriptEvaluated => reportUncaught (evalScript s)
  | .domContentLoaded => dispatchEvent s .document .DOMContentLoaded
  | .click i =>
    performDefault (dispatchEvent s (.node i) .click) (activationOf s.document i)

/-- Runs a sequence of events. -/
def runEvents (s : PageState) (events : List Event) : PageState :=
  events.foldl step s

/-- Clicks on the given elements, one after the other. -/
def clickAll (s : PageState) (targets : List Nat) : PageState :=
  runEvents s (targets.map Event.click)

/-- How many times the setup body has started: each run begins by logging
the start-up line, and nothing else logs. -/
def setupRuns (s : PageState) : Nat :=
  s.console.count loadedMsg

/-- Elements of the document that the selector `#add-to-cart` matches. -/
def isAddToCart (e : Element) : Bool :=
  e.id == some "add-to-cart"

/-- Elements of the document carrying the id `checkout`. -/
def isCheckout (e : Element) : Bool :=
  e.id == some "checkout"


/-! ## What one run of the setup body adds -/

/-- The click listeners a loop over `targets` appends when the first
function object it creates has number `n`. -/
def freshClickListeners (code : FnCode) : Nat → List Nat → List Listener
  | _, [] => []
  | n, i :: rest => ⟨.node i, .click, ⟨n, code⟩⟩ :: freshClickListeners code (n + 1) rest

/-- The listener the checkout branch appends, if the element is found. -/
def checkoutListeners (doc : List Element) (n : Nat) : List Listener :=
  match getElementById doc "checkout" with
  | some c => [⟨.node c, .click, ⟨n, .checkoutClick⟩⟩]
  | none => []

/-- The listeners one run of the setup body appends to the table. -/
def setupListeners (s : PageState) : List Listener :=
  freshClickListeners .addToCartClick s.nextFn (elementsWithId s.document "add-to-cart")
    ++ checkoutListeners s.document (s.nextFn + (elementsWithId s.document "add-to-cart").length)

/-- The state one run of the setup body leaves behind. -/
def setupResult (s : PageState) : PageState :=
  { s with
    console := s.console ++ [loadedMsg]
    listeners := s.listeners ++ setupListeners s
    nextFn := s.nextFn + (setupListeners s).length }

/-- Every click listener in the table was created before the next function
object: its number is below `nextFn`. -/
def ClickIdsFresh (s : PageState) : Prop :=
  ∀ l ∈ s.listeners, l.type = .click → l.callback.fnId < s.nextFn

/-- The message a click handler of the script shows. -/
def handlerMsg : FnCode → Option String
  | .setup => none
  | .addToCartClick => some addedMsg
  | .checkoutClick => some checkoutMsg


/-- The code of the click listeners registered on an element, in
registration order. -/
def clickCodes (s : PageState) (i : Nat) : List FnCode :=
  (listenersOn s (.node i) .click).map fun l => l.callback.code

/-- The code of the click listeners along a path, in the order a dispatch
invokes them. -/
def codesAlong (s : PageState) : List Target → List FnCode
  | [] => []
  | t :: rest => (listenersOn s t .click).map (fun l => l.callback.code) ++ codesAlong s rest

/-- The code a click on the element at position `i` invokes. -/
def clickPathCodes (s : PageState) (i : Nat) : List FnCode :=
  codesAlong s (eventPath s.document (.node i))

/-- No proper ancestor of the element at position `i` carries the id
`add-to-cart` or `checkout`: the element is not nested inside a button of
the script. -/
def standsAlone (doc : List Element) (i : Nat) : Bool :=
  (ancestors doc i).all fun a =>
    match doc[a]? with
    | some e => !(e.id == some "add-to-cart") && !(e.id == some "checkout")
    | none => true

/-- Is the listener registered on an element that `#add-to-cart` matches. -/
def targetsAddToCart (doc : List Element) (l : Listener) : Bool :=
  match l.target with
  | .node i =>
    match doc[i]? with
    | some e => isAddToCart e
    | none => false
  | .document => false

/-- A page with an add-to-cart button, an element without id and a second
add-to-cart button inside that element, after its script has been evaluated
and before the document is ready. -/
def twoButtonPage : PageState :=
  step (loadPage [⟨some "add-to-cart", none, .nothing⟩, ⟨none, none, .nothing⟩,
    ⟨some "add-to-cart", some 1, .nothing⟩]) .scriptEvaluated

/-- A page with three add-to-cart buttons and one checkout button, after its
script has been evaluated and before the document is ready. -/
def shopPage : PageState :=
  step (loadPage [⟨some "add-to-cart", none, .nothing⟩, ⟨some "add-to-cart", none, .nothing⟩,
    ⟨some "add-to-cart", none, .nothing⟩, ⟨some "checkout", none, .nothing⟩]) .scriptEvaluated

/-- A page with neither kind of button, script evaluated. -/
def plainPage : PageState :=
  step (loadPage [⟨none, none, .nothing⟩, ⟨some "title", some 0, .nothing⟩]) .scriptEvaluated

/-- A page on which two elements carry the id `checkout` and two the id
`add-to-cart`, script evaluated. -/
def twoCheckoutPage : PageState :=
  step (loadPage [⟨some "add-to-cart", none, .nothing⟩, ⟨some "checkout", none, .nothing⟩,
    ⟨some "add-to-cart", none, .nothing⟩, ⟨some "checkout", none, .nothing⟩]) .scriptEvaluated

/-- The invariant of the page states the script can reach: function
objects in the table were all created already, click listeners run one of
the two click handlers, `DOMContentLoaded` listeners sit on the document and
run the setup body, only the two notification texts have been shown, and
nothing has been reported as uncaught. -/
def WellFormed (s : PageState) : Prop :=
  (∀ l ∈ s.listeners, l.callback.fnId < s.nextFn) ∧
  (∀ l ∈ s.listeners, l.type = .click → l.callback.code ≠ .setup) ∧
  (∀ l ∈ s.listeners, l.type = .DOMContentLoaded →
    l.callback.code = .setup ∧ l.target = .document) ∧
  (∀ a ∈ s.alerts, a = addedMsg ∨ a = checkoutMsg) ∧
  s.uncaught = []

/-- The notifications a sequence of clicks shows in a state whose click
listeners are click handlers. -/
def clickAlerts (s : PageState) : List Nat → List String
  | [] => []
  | c :: cs => (clickPathCodes s c).filterMap handlerMsg ++ clickAlerts s cs

/-- The notification a click on the element at position `c` is expected to
show on a page whose checkout element is unique: the added-to-cart text on
an `add-to-cart` element, the redirecting text on the `checkout` element. -/
def expectedMsg (doc : List Element) (c : Nat) : Option String :=
  match doc[c]? with
  | some e =>
    if isAddToCart e then some addedMsg
    else if isCheckout e then some checkoutMsg
    else none
  | none => none

/-- The ordinary life of a page: its script is evaluated, the document
becomes ready, and the user clicks three times. -/
def ordinaryRun : List Event :=
  [.scriptEvaluated, .domContentLoaded, .click 0, .click 3, .click 0]

/-- An add-to-cart button inside the checkout element, script evaluated. -/
def buttonInCheckoutPage : PageState :=
  step (loadPage [⟨some "checkout", none, .nothing⟩, ⟨some "add-to-cart", some 0, .nothing⟩])
    .scriptEvaluated

/-- The checkout button inside an add-to-cart element, script evaluated. -/
def checkoutInButtonPage : PageState :=
  step (loadPage [⟨some "add-to-cart", none, .nothing⟩, ⟨some "checkout", some 0, .nothing⟩])
    .scriptEvaluated

/-- A second element with id `checkout` inside the first one, script
evaluated. -/
def checkoutInCheckoutPage : PageState :=
  step (loadPage [⟨some "checkout", none, .nothing⟩, ⟨some "checkout", some 0, .nothing⟩])
    .scriptEvaluated

/-- The checkout control is a link and the add-to-cart control submits a
form; script evaluated and document ready. -/
def linkPage : PageState :=
  runEvents (loadPage [⟨some "checkout", none, .navigate "/checkout"⟩,
    ⟨some "add-to-cart", none, .submit "/cart/add"⟩, ⟨some "title", none, .nothing⟩])
    [.scriptEvaluated, .domContentLoaded]

/-! ## Queries on the document -/

theorem querySelectorAll_addToCart (doc : List Element) :
    querySelectorAll doc "#add-to-cart" = elementsWithId doc "add-to-cart" := by
  rfl

theorem mem_elementsWithId {doc : List Element} {id : String} {i : Nat} :
    i ∈ elementsWithId doc id ↔ ∃ e, doc[i]? = some e ∧ e.id = some id := by
  unfold elementsWithId
  rw [List.mem_filter, List.mem_range]
  constructor
  · rintro ⟨hi, h⟩
    rw [List.getElem?_eq_getElem hi] at h ⊢
    exact ⟨doc[i], rfl, by simpa [hasId] using h⟩
  · rintro ⟨e, he, hid⟩
    have hi : i < doc.length := by
      by_contra hcon
      rw [List.getElem?_eq_none (Nat.le_of_not_lt hcon)] at he
      cases he
    refine ⟨hi, ?_⟩
    rw [he]
    simp [hasId, hid]

theorem nodup_elementsWithId (doc : List Element) (id : String) :
    (elementsWithId doc id).Nodup :=
  (List.nodup_range _).filter _

theorem sorted_elementsWithId (doc : List Element) (id : String) :
    (elementsWithId doc id).Pairwise (· < ·) :=
  (List.pairwise_lt_range _).filter _

theorem elementsWithId_append_singleton (doc : List Element) (e : Element) (id : String) :
    elementsWithId (doc ++ [e]) id
      = elementsWithId doc id ++ (if hasId e id then [doc.length] else []) := by
  unfold elementsWithId
  rw [List.length_append, List.length_singleton, List.range_succ, List.filter_append]
  congr 1
  · apply List.filter_congr
    intro i hi
    rw [List.mem_range] at hi
    rw [List.getElem?_append_left hi]
  · simp [List.filter_cons]

theorem length_elementsWithId (doc : List Element) (id : String) :
    (elementsWithId doc id).length = doc.countP (fun e => hasId e id) := by
  induction doc using List.reverseRecOn with
  | nil => rfl
  | append_singleton doc e ih =>
    rw [elementsWithId_append_singleton, List.length_append, ih, List.countP_append]
    by_cases h : hasId e id = true <;> simp [h]

theorem getElementById_eq_some {doc : List Element} {id : String} {c : Nat} :
    getElementById doc id = some c ↔
      (∃ e, doc[c]? = some e ∧ e.id = some id) ∧
        ∀ j e, j < c → doc[j]? = some e → e.id ≠ some id := by
  unfold getElementById
  constructor
  · intro h
    have hmem : c ∈ elementsWithId doc id := List.mem_of_mem_head? h
    refine ⟨mem_elementsWithId.mp hmem, ?_⟩
    intro j e hj he hid
    have hjm : j ∈ elementsWithId doc id := mem_elementsWithId.mpr ⟨e, he, hid⟩
    have hs := sorted_elementsWithId doc id
    cases hl : elementsWithId doc id with
    | nil => rw [hl] at hmem; cases hmem
    | cons a rest =>
      rw [hl] at h hjm hs
      simp only [List.head?_cons, Option.some.injEq] at h
      subst h
      rcases List.mem_cons.mp hjm with hja | hjr
      · omega
      · have := List.rel_of_pairwise_cons hs hjr
        omega
  · rintro ⟨hc, hfirst⟩
    have hmem : c ∈ elementsWithId doc id := mem_elementsWithId.mpr hc
    have hs := sorted_elementsWithId doc id
    cases hl : elementsWithId doc id with
    | nil => rw [hl] at hmem; cases hmem
    | cons a rest =>
      rw [hl] at hmem hs
      have ha : a ∈ elementsWithId doc id := by rw [hl]; exact List.mem_cons_self _ _
      obtain ⟨e, he, hid⟩ := mem_elementsWithId.mp ha
      simp only [List.head?_cons, Option.some.injEq]
      rcases List.mem_cons.mp hmem with hca | hcr
      · exact hca.symm
      · have hlt := List.rel_of_pairwise_cons hs hcr
        exact absurd hid (hfirst a e hlt he)

theorem getElementById_eq_none {doc : List Element} {id : String} :
    getElementById doc id = none ↔ ∀ e ∈ doc, e.id ≠ some id := by
  unfold getElementById
  rw [List.head?_eq_none_iff]
  constructor
  · intro h e he hid
    obtain ⟨i, hi, rfl⟩ := List.getElem_of_mem he
    have : i ∈ elementsWithId doc id :=
      mem_elementsWithId.mpr ⟨doc[i], List.getElem?_eq_getElem hi, hid⟩
    rw [h] at this
    cases this
  · intro h
    apply List.eq_nil_iff_forall_not_mem.mpr
    intro i hi
    obtain ⟨e, he, hid⟩ := mem_elementsWithId.mp hi
    exact h e (List.getElem?_mem he) hid


/-! ## The setup body, statement by statement -/

theorem addEventListener_fresh (s : PageState) (t : Target) (type : EventType) (cb : Closure)
    (h : ∀ l ∈ s.listeners, l.type = type → l.callback.fnId ≠ cb.fnId) :
    addEventListener s (some t) type cb
      = ⟨{ s with listeners := s.listeners ++ [⟨t, type, cb⟩] }, none⟩ := by
  have hno : alreadyListening s t type cb = false := by
    unfold alreadyListening
    rw [List.any_eq_false]
    intro l hl
    by_cases hty : l.type = type
    · have := h l hl hty
      simp [this]
    · simp [hty]
  simp [addEventListener, hno]

theorem bindAddToCart_eq (i : Nat) (s : PageState) (h : ClickIdsFresh s) :
    bindAddToCart i s
      = ⟨{ s with
            listeners := s.listeners ++ [⟨.node i, .click, ⟨s.nextFn, .addToCartClick⟩⟩]
            nextFn := s.nextFn + 1 }, none⟩ := by
  unfold bindAddToCart newFunction
  simp only
  rw [addEventListener_fresh]
  intro l hl hty
  have := h l hl hty
  simp only
  omega

theorem forEach_bindAddToCart (targets : List Nat) (s : PageState) (h : ClickIdsFresh s) :
    forEach bindAddToCart targets s
      = ⟨{ s with
            listeners := s.listeners ++ freshClickListeners .addToCartClick s.nextFn targets
            nextFn := s.nextFn + targets.length }, none⟩ := by
  induction targets generalizing s with
  | nil => simp [forEach, freshClickListeners]
  | cons i rest ih =>
    rw [forEach, bindAddToCart_eq i s h, Completion.andThen]
    simp only
    rw [ih]
    · simp [freshClickListeners, Nat.add_assoc, Nat.add_comm 1]
    · intro l hl hty
      simp only [List.mem_append, List.mem_singleton] at hl
      rcases hl with hl | rfl
      · have := h l hl hty
        simp only
        omega
      · simp

theorem length_freshClickListeners (code : FnCode) (n : Nat) (targets : List Nat) :
    (freshClickListeners code n targets).length = targets.length := by
  induction targets generalizing n with
  | nil => rfl
  | cons i rest ih => simp [freshClickListeners, ih]

theorem mem_freshClickListeners {code : FnCode} {n : Nat} {targets : List Nat} {l : Listener}
    (h : l ∈ freshClickListeners code n targets) :
    l.type = .click ∧ l.callback.code = code ∧ n ≤ l.callback.fnId ∧
      l.callback.fnId < n + targets.length ∧ ∃ i ∈ targets, l.target = .node i := by
  induction targets generalizing n with
  | nil => cases h
  | cons i rest ih =>
    rcases List.mem_cons.mp h with rfl | hr
    · simp
    · obtain ⟨h1, h2, h3, h4, j, hj, h5⟩ := ih hr
      refine ⟨h1, h2, by omega, by simp only [List.length_cons]; omega, j, List.mem_cons_of_mem _ hj, h5⟩

theorem setupBody_eq (s : PageState) (h : ClickIdsFresh s) :
    setupBody s = ⟨setupResult s, none⟩ := by
  unfold setupBody
  simp only [consoleLog, querySelectorAll_addToCart]
  rw [forEach_bindAddToCart _ _ (by exact h), Completion.andThen]
  simp only
  cases hc : getElementById s.document "checkout" with
  | none =>
    simp [setupResult, setupListeners, checkoutListeners, hc, length_freshClickListeners]
  | some c =>
    simp only [Option.isSome_some, if_true, newFunction, Option.map_some']
    rw [addEventListener_fresh]
    · simp [setupResult, setupListeners, checkoutListeners, hc, Nat.add_assoc,
        length_freshClickListeners]
    · intro l hl hty
      simp only [List.mem_append] at hl
      rcases hl with hl | hl
      · have := h l hl hty
        simp only
        omega
      · have := (mem_freshClickListeners hl).2.2.2.1
        simp only
        omega

theorem clickIdsFresh_setupResult (s : PageState) (h : ClickIdsFresh s) :
    ClickIdsFresh (setupResult s) := by
  intro l hl hty
  simp only [setupResult, List.mem_append] at hl ⊢
  rcases hl with hl | hl
  · have := h l hl hty
    omega
  · simp only [setupListeners, List.mem_append] at hl
    rcases hl with hl | hl
    · have := (mem_freshClickListeners hl).2.2.2.1
      simp only [setupListeners, List.length_append, length_freshClickListeners]
      omega
    · unfold checkoutListeners at hl
      simp only [setupListeners, List.length_append, length_freshClickListeners]
      unfold checkoutListeners
      cases hc : getElementById s.document "checkout" with
      | none => rw [hc] at hl; cases hl
      | some c =>
        rw [hc] at hl
        simp only [List.mem_singleton] at hl
        subst hl
        simp

theorem filter_freshClickListeners (code : FnCode) (n : Nat) (targets : List Nat) (i : Nat) :
    ((freshClickListeners code n targets).filter
        fun l => l.target == Target.node i && l.type == EventType.click).map
        (fun l => l.callback.code)
      = List.replicate (targets.count i) code := by
  induction targets generalizing n with
  | nil => rfl
  | cons j rest ih =>
    by_cases hji : j = i
    · subst hji
      simp [freshClickListeners, List.filter_cons, ih, List.replicate_succ]
    · have hne : (Target.node j == Target.node i) = false := by
        simp [hji]
      simp [freshClickListeners, List.filter_cons, ih, hne, List.count_cons, hji]

theorem filter_checkoutListeners (doc : List Element) (n i : Nat) :
    ((checkoutListeners doc n).filter
        fun l => l.target == Target.node i && l.type == EventType.click).map
        (fun l => l.callback.code)
      = if getElementById doc "checkout" = some i then [FnCode.checkoutClick] else [] := by
  unfold checkoutListeners
  cases hc : getElementById doc "checkout" with
  | none => simp
  | some c =>
    by_cases hci : c = i
    · subst hci
      simp [List.filter_cons]
    · have hne : (Target.node c == Target.node i) = false := by
        simp [hci]
      simp [List.filter_cons, hne, hci]

theorem clickCodes_setupResult (s : PageState) (i : Nat) :
    clickCodes (setupResult s) i
      = clickCodes s i
        ++ List.replicate ((elementsWithId s.document "add-to-cart").count i) FnCode.addToCartClick
        ++ (if getElementById s.document "checkout" = some i then [FnCode.checkoutClick] else []) := by
  unfold clickCodes listenersOn
  simp only [setupResult, setupListeners, List.filter_append, List.map_append,
    filter_freshClickListeners, filter_checkoutListeners, List.append_assoc]

/-! ## Running click handlers -/

theorem runListeners_clicks (ls : List Listener) (s : PageState)
    (h : ∀ l ∈ ls, l.callback.code ≠ .setup) :
    runListeners ls s
      = { s with alerts := s.alerts ++ ls.filterMap fun l => handlerMsg l.callback.code } := by
  induction ls generalizing s with
  | nil => simp [runListeners]
  | cons l rest ih =>
    have hl := h l (List.mem_cons_self _ _)
    have hrest : ∀ l ∈ rest, l.callback.code ≠ .setup :=
      fun l hm => h l (List.mem_cons_of_mem _ hm)
    rw [runListeners, ih _ hrest]
    cases hcode : l.callback.code with
    | setup => exact absurd hcode hl
    | addToCartClick =>
      simp [callFn, reportUncaught, alert, List.filterMap_cons, hcode, handlerMsg]
    | checkoutClick =>
      simp [callFn, reportUncaught, alert, List.filterMap_cons, hcode, handlerMsg]

theorem codesAlong_congr {s t : PageState} (h : t.listeners = s.listeners)
    (ts : List Target) : codesAlong t ts = codesAlong s ts := by
  induction ts with
  | nil => rfl
  | cons a rest ih => simp only [codesAlong, listenersOn, h, ih]

theorem dispatchAlong_clicks (ts : List Target) (s : PageState)
    (h : ∀ l ∈ s.listeners, l.type = .click → l.callback.code ≠ .setup) :
    dispatchAlong .click ts s
      = { s with alerts := s.alerts ++ (codesAlong s ts).filterMap handlerMsg } := by
  induction ts generalizing s with
  | nil => simp [dispatchAlong, codesAlong]
  | cons t rest ih =>
    have hrun : runListeners (listenersOn s t .click) s
        = { s with alerts := s.alerts
              ++ (listenersOn s t .click).filterMap fun l => handlerMsg l.callback.code } := by
      apply runListeners_clicks
      intro l hl
      obtain ⟨hm, hp⟩ := List.mem_filter.mp hl
      simp only [Bool.and_eq_true, beq_iff_eq] at hp
      exact h l hm hp.2
    rw [dispatchAlong, hrun, ih _ (by exact h)]
    have hc : codesAlong { s with alerts := s.alerts
          ++ (listenersOn s t .click).filterMap fun l => handlerMsg l.callback.code } rest
        = codesAlong s rest := by
      apply codesAlong_congr
      rfl
    simp only [hc, codesAlong, List.filterMap_append, List.filterMap_map, Function.comp_def,
      List.append_assoc]

theorem dispatch_click (s : PageState) (i : Nat)
    (h : ∀ l ∈ s.listeners, l.type = .click → l.callback.code ≠ .setup) :
    dispatchEvent s (.node i) .click
      = { s with alerts := s.alerts ++ (clickPathCodes s i).filterMap handlerMsg } :=
  dispatchAlong_clicks _ s h

/-! ## Ancestors -/

theorem ancestorsFrom_enough (doc : List Element) (f1 f2 i : Nat) (h1 : i ≤ f1) (h2 : i ≤ f2) :
    ancestorsFrom doc f1 i = ancestorsFrom doc f2 i := by
  induction f1 generalizing f2 i with
  | zero =>
    have hi : i = 0 := by omega
    subst hi
    cases f2 with
    | zero => rfl
    | succ m =>
      simp only [ancestorsFrom]
      split
      · split
        · simp
        · rfl
      · rfl
  | succ n ih =>
    cases f2 with
    | zero =>
      have hi : i = 0 := by omega
      subst hi
      simp only [ancestorsFrom]
      split
      · split
        · simp
        · rfl
      · rfl
    | succ m =>
      simp only [ancestorsFrom]
      split
      · split
        · split
          · rw [ih m _ (by omega) (by omega)]
          · rfl
        · rfl
      · rfl

theorem ancestors_lt {doc : List Element} {fuel i a : Nat}
    (h : a ∈ ancestorsFrom doc fuel i) : a < i := by
  induction fuel generalizing i with
  | zero => cases h
  | succ n ih =>
    simp only [ancestorsFrom] at h
    split at h
    · split at h
      · split at h
        · rcases List.mem_cons.mp h with rfl | hr
          · assumption
          · have := ih hr
            omega
        · cases h
      · cases h
    · cases h

/-! ## Handlers registered by one run -/

theorem clickIdsFresh_of_no_click (s : PageState) (h : ∀ l ∈ s.listeners, l.type ≠ .click) :
    ClickIdsFresh s :=
  fun l hl hty => absurd hty (h l hl)

theorem clickCodes_of_no_click (s : PageState) (h : ∀ l ∈ s.listeners, l.type ≠ .click)
    (i : Nat) : clickCodes s i = [] := by
  unfold clickCodes listenersOn
  rw [List.map_eq_nil_iff, List.filter_eq_nil_iff]
  intro l hl
  have := h l hl
  simp [this]

theorem count_addToCart {doc : List Element} {i : Nat} {e : Element}
    (he : doc[i]? = some e) (hid : isAddToCart e = true) :
    (elementsWithId doc "add-to-cart").count i = 1 := by
  apply List.count_eq_one_of_mem (nodup_elementsWithId _ _)
  exact mem_elementsWithId.mpr ⟨e, he, by simpa [isAddToCart] using hid⟩

theorem not_checkout_of_addToCart {doc : List Element} {i : Nat} {e : Element}
    (he : doc[i]? = some e) (hid : isAddToCart e = true) :
    getElementById doc "checkout" ≠ some i := by
  intro hc
  obtain ⟨⟨e', he', hid'⟩, _⟩ := getElementById_eq_some.mp hc
  rw [he] at he'
  cases he'
  have h1 : e.id = some "add-to-cart" := by simpa [isAddToCart] using hid
  rw [h1] at hid'
  exact absurd hid' (by decide)

theorem clickCodes_addToCart (s : PageState) (h : ∀ l ∈ s.listeners, l.type ≠ .click)
    {i : Nat} {e : Element} (he : s.document[i]? = some e) (hid : isAddToCart e = true) :
    clickCodes (setupResult s) i = [.addToCartClick] := by
  rw [clickCodes_setupResult, clickCodes_of_no_click s h, count_addToCart he hid,
    if_neg (not_checkout_of_addToCart he hid)]
  rfl

theorem filter_targetsAddToCart_fresh (doc : List Element) (n : Nat) :
    (freshClickListeners .addToCartClick n (elementsWithId doc "add-to-cart")).filter
        (fun l => l.type == EventType.click && targetsAddToCart doc l)
      = freshClickListeners .addToCartClick n (elementsWithId doc "add-to-cart") := by
  rw [List.filter_eq_self]
  intro l hl
  obtain ⟨hty, _, _, _, i, hi, htg⟩ := mem_freshClickListeners hl
  obtain ⟨e, he, hid⟩ := mem_elementsWithId.mp hi
  simp [hty, targetsAddToCart, htg, he, isAddToCart, hid]

theorem filter_targetsAddToCart_checkout (doc : List Element) (n : Nat) :
    (checkoutListeners doc n).filter
        (fun l => l.type == EventType.click && targetsAddToCart doc l) = [] := by
  unfold checkoutListeners
  cases hc : getElementById doc "checkout" with
  | none => rfl
  | some c =>
    obtain ⟨⟨e, he, hid⟩, _⟩ := getElementById_eq_some.mp hc
    have : isAddToCart e = false := by
      simp only [isAddToCart, hid]
      decide
    simp [List.filter_cons, targetsAddToCart, he, this]

theorem count_addToCart_of_checkout {doc : List Element} {i : Nat} {e : Element}
    (he : doc[i]? = some e) (hid : isCheckout e = true) :
    (elementsWithId doc "add-to-cart").count i = 0 := by
  rw [List.count_eq_zero]
  intro hmem
  obtain ⟨e', he', hid'⟩ := mem_elementsWithId.mp hmem
  rw [he] at he'
  cases he'
  have h1 : e.id = some "checkout" := by simpa [isCheckout] using hid
  rw [h1] at hid'
  exact absurd hid' (by decide)

theorem getElementById_checkout_of_first {doc : List Element} {c : Nat} {ec : Element}
    (hc : doc[c]? = some ec) (hcid : isCheckout ec = true)
    (hfirst : ∀ e ∈ doc.take c, isCheckout e = false) :
    getElementById doc "checkout" = some c := by
  rw [getElementById_eq_some]
  refine ⟨⟨ec, hc, by simpa [isCheckout] using hcid⟩, ?_⟩
  intro k e hk he hid
  have hmem : e ∈ doc.take c := by
    apply List.getElem?_mem (n := k)
    rw [List.getElem?_take_of_lt hk]
    exact he
  have := hfirst e hmem
  simp [isCheckout, hid] at this

theorem fnIds_freshClickListeners (code : FnCode) (n : Nat) (targets : List Nat) :
    (freshClickListeners code n targets).map (fun l => l.callback.fnId)
      = List.range' n targets.length := by
  induction targets generalizing n with
  | nil => rfl
  | cons i rest ih => simp [freshClickListeners, ih, List.range'_succ]

theorem fnIds_setupListeners (s : PageState) :
    (setupListeners s).map (fun l => l.callback.fnId)
      = List.range' s.nextFn (setupListeners s).length := by
  unfold setupListeners checkoutListeners
  cases getElementById s.document "checkout" with
  | none => simp [fnIds_freshClickListeners, length_freshClickListeners]
  | some c =>
    simp [fnIds_freshClickListeners, length_freshClickListeners, List.range'_concat]

theorem mem_setupListeners {s : PageState} {l : Listener} (h : l ∈ setupListeners s) :
    l.type = .click ∧
      ((l.callback.code = .addToCartClick ∧ targetsAddToCart s.document l = true) ∨
        (l.callback.code = .checkoutClick ∧
          ∃ c, l.target = .node c ∧ getElementById s.document "checkout" = some c)) := by
  simp only [setupListeners, List.mem_append] at h
  rcases h with h | h
  · have hf := filter_targetsAddToCart_fresh s.document s.nextFn
    rw [← hf] at h
    obtain ⟨hm, hp⟩ := List.mem_filter.mp h
    obtain ⟨hty, hcode, _⟩ := mem_freshClickListeners hm
    refine ⟨hty, Or.inl ⟨hcode, ?_⟩⟩
    simpa [hty] using hp
  · unfold checkoutListeners at h
    cases hc : getElementById s.document "checkout" with
    | none => rw [hc] at h; cases h
    | some c =>
      rw [hc] at h
      simp only [List.mem_singleton] at h
      subst h
      exact ⟨rfl, Or.inr ⟨rfl, c, rfl, rfl⟩⟩


theorem ancestors_of_parent {doc : List Element} {i p : Nat} {e : Element}
    (he : doc[i]? = some e) (hp : e.parent = some p) (hlt : p < i) :
    ancestors doc i = p :: ancestors doc p := by
  unfold ancestors
  cases i with
  | zero => omega
  | succ k =>
    simp only [ancestorsFrom, he, hp, hlt, if_true]
    rw [ancestorsFrom_enough doc k p p (by omega) (Nat.le_refl _)]

theorem ancestors_of_root {doc : List Element} {i : Nat} {e : Element}
    (he : doc[i]? = some e) (hp : e.parent = none) : ancestors doc i = [] := by
  unfold ancestors
  cases i with
  | zero => rfl
  | succ k => simp only [ancestorsFrom, he, hp]

/-! ## Default actions -/

theorem performDefault_frame (s : PageState) (a : DefaultAction) :
    (performDefault s a).document = s.document ∧
      (performDefault s a).listeners = s.listeners ∧
      (performDefault s a).nextFn = s.nextFn ∧
      (performDefault s a).console = s.console ∧
      (performDefault s a).alerts = s.alerts ∧
      (performDefault s a).storage = s.storage ∧
      (performDefault s a).uncaught = s.uncaught := by
  cases a <;> exact ⟨rfl, rfl, rfl, rfl, rfl, rfl, rfl⟩

/-! ## Clicks after one run -/

theorem listenersOn_document_click_setupResult (s : PageState) :
    listenersOn (setupResult s) .document .click = listenersOn s .document .click := by
  unfold listenersOn
  simp only [setupResult, List.filter_append]
  have : (setupListeners s).filter
      (fun l => l.target == Target.document && l.type == EventType.click) = [] := by
    rw [List.filter_eq_nil_iff]
    intro l hl
    rcases (mem_setupListeners hl).2 with ⟨_, h⟩ | ⟨_, c, h, _⟩
    · unfold targetsAddToCart at h
      split at h
      · rename_i i ht
        simp [ht]
      · cases h
    · simp [h]
  rw [this, List.append_nil]

theorem codesAlong_nodes_nil (t : PageState) (ns : List Nat)
    (hanc : ∀ a ∈ ns, clickCodes t a = [])
    (hdoc : listenersOn t .document .click = []) :
    codesAlong t (ns.map Target.node ++ [.document]) = [] := by
  induction ns with
  | nil => simp [codesAlong, hdoc]
  | cons a rest ih =>
    have ha := hanc a (List.mem_cons_self _ _)
    unfold clickCodes at ha
    simp only [List.map_cons, List.cons_append, codesAlong, ha, List.nil_append]
    exact ih (fun b hb => hanc b (List.mem_cons_of_mem _ hb))

theorem clickPathCodes_of_alone (t : PageState) (i : Nat)
    (hanc : ∀ a ∈ ancestors t.document i, clickCodes t a = [])
    (hdoc : listenersOn t .document .click = []) :
    clickPathCodes t i = clickCodes t i := by
  have h := codesAlong_nodes_nil t _ hanc hdoc
  show (listenersOn t (.node i) .click).map (fun l => l.callback.code)
      ++ codesAlong t ((ancestors t.document i).map Target.node ++ [.document]) = clickCodes t i
  rw [h, List.append_nil]
  rfl

theorem plain_of_standsAlone {doc : List Element} {i a : Nat}
    (h : standsAlone doc i = true) (ha : a ∈ ancestors doc i) :
    ∀ e, doc[a]? = some e → e.id ≠ some "add-to-cart" ∧ e.id ≠ some "checkout" := by
  intro e he
  unfold standsAlone at h
  rw [List.all_eq_true] at h
  have := h a ha
  rw [he] at this
  simpa using this

theorem clickCodes_unbound (s : PageState) (hnone : ∀ l ∈ s.listeners, l.type ≠ .click)
    {a : Nat}
    (h : ∀ e, s.document[a]? = some e → e.id ≠ some "add-to-cart" ∧ e.id ≠ some "checkout") :
    clickCodes (setupResult s) a = [] := by
  have hcount : (elementsWithId s.document "add-to-cart").count a = 0 := by
    rw [List.count_eq_zero]
    intro hm
    obtain ⟨e, he, hid⟩ := mem_elementsWithId.mp hm
    exact (h e he).1 hid
  have hget : getElementById s.document "checkout" ≠ some a := by
    intro hc
    obtain ⟨⟨e, he, hid⟩, _⟩ := getElementById_eq_some.mp hc
    exact (h e he).2 hid
  rw [clickCodes_setupResult, clickCodes_of_no_click s hnone, hcount, if_neg hget]
  rfl

theorem no_document_click (s : PageState) (hnone : ∀ l ∈ s.listeners, l.type ≠ .click) :
    listenersOn s .document .click = [] := by
  unfold listenersOn
  rw [List.filter_eq_nil_iff]
  intro l hl
  have := hnone l hl
  simp [this]

theorem clickPathCodes_setup_alone (s : PageState)
    (hnone : ∀ l ∈ s.listeners, l.type ≠ .click) {i : Nat}
    (halone : standsAlone s.document i = true) :
    clickPathCodes (setupResult s) i = clickCodes (setupResult s) i := by
  apply clickPathCodes_of_alone
  · intro a ha
    exact clickCodes_unbound s hnone (plain_of_standsAlone halone ha)
  · rw [listenersOn_document_click_setupResult, no_document_click s hnone]

/-! ## Reachable states -/

theorem wellFormed_loadPage (doc : List Element) : WellFormed (loadPage doc) := by
  refine ⟨?_, ?_, ?_, ?_, rfl⟩ <;> intro x hx <;> cases hx

theorem clickIdsFresh_of_wellFormed {s : PageState} (h : WellFormed s) : ClickIdsFresh s :=
  fun l hl _ => h.1 l hl

theorem wellFormed_setupResult {s : PageState} (h : WellFormed s) :
    WellFormed (setupResult s) := by
  obtain ⟨h1, h2, h3, h4, h5⟩ := h
  refine ⟨?_, ?_, ?_, h4, h5⟩
  · intro l hl
    simp only [setupResult, List.mem_append] at hl ⊢
    rcases hl with hl | hl
    · have := h1 l hl
      omega
    · have hid : l.callback.fnId ∈ (setupListeners s).map (fun l => l.callback.fnId) :=
        List.mem_map_of_mem _ hl
      rw [fnIds_setupListeners, List.mem_range'_1] at hid
      omega
  · intro l hl hty
    simp only [setupResult, List.mem_append] at hl
    rcases hl with hl | hl
    · exact h2 l hl hty
    · rcases (mem_setupListeners hl).2 with ⟨hc, _⟩ | ⟨hc, _⟩ <;> rw [hc] <;> decide
  · intro l hl hty
    simp only [setupResult, List.mem_append] at hl
    rcases hl with hl | hl
    · exact h3 l hl hty
    · have := (mem_setupListeners hl).1
      rw [this] at hty
      cases hty

theorem wellFormed_iterate_setupResult {s : PageState} (h : WellFormed s) (k : Nat) :
    WellFormed (Nat.iterate setupResult k s) := by
  induction k generalizing s with
  | zero => exact h
  | succ k ih => exact ih (wellFormed_setupResult h)

theorem runListeners_setup (ls : List Listener) (s : PageState)
    (hls : ∀ l ∈ ls, l.callback.code = .setup) (h : WellFormed s) :
    runListeners ls s = Nat.iterate setupResult ls.length s := by
  induction ls generalizing s with
  | nil => rfl
  | cons l rest ih =>
    have hl := hls l (List.mem_cons_self _ _)
    rw [runListeners, hl, callFn, setupBody_eq s (clickIdsFresh_of_wellFormed h)]
    simp only [reportUncaught, List.length_cons, Function.iterate_succ_apply]
    exact ih _ (fun l hm => hls l (List.mem_cons_of_mem _ hm)) (wellFormed_setupResult h)

theorem step_scriptEvaluated {s : PageState} (h : WellFormed s) :
    step s .scriptEvaluated
      = { s with
          listeners := s.listeners ++ [⟨.document, .DOMContentLoaded, ⟨s.nextFn, .setup⟩⟩]
          nextFn := s.nextFn + 1 } := by
  simp only [step, evalScript, newFunction]
  rw [addEventListener_fresh]
  · rfl
  · intro l hl _
    have := h.1 l hl
    simp only
    omega

theorem step_domContentLoaded {s : PageState} (h : WellFormed s) :
    step s .domContentLoaded
      = Nat.iterate setupResult (listenersOn s .document .DOMContentLoaded).length s := by
  simp only [step, dispatchEvent, eventPath, dispatchAlong]
  apply runListeners_setup _ _ _ h
  intro l hl
  obtain ⟨hm, hp⟩ := List.mem_filter.mp hl
  have hty : l.type = .DOMContentLoaded := by
    simp only [Bool.and_eq_true, beq_iff_eq] at hp
    exact hp.2
  exact (h.2.2.1 l hm hty).1

theorem handlerMsg_mem {c : FnCode} {m : String} (h : handlerMsg c = some m) :
    m = addedMsg ∨ m = checkoutMsg := by
  cases c with
  | setup => cases h
  | addToCartClick => left; cases h; rfl
  | checkoutClick => right; cases h; rfl

theorem step_click {s : PageState}
    (h : ∀ l ∈ s.listeners, l.type = .click → l.callback.code ≠ .setup) (i : Nat) :
    step s (.click i)
      = performDefault
          { s with alerts := s.alerts ++ (clickPathCodes s i).filterMap handlerMsg }
          (activationOf s.document i) := by
  simp only [step]
  rw [dispatch_click s i h]

theorem wellFormed_step {s : PageState} (h : WellFormed s) (e : Event) :
    WellFormed (step s e) := by
  cases e with
  | scriptEvaluated =>
    rw [step_scriptEvaluated h]
    obtain ⟨h1, h2, h3, h4, h5⟩ := h
    refine ⟨?_, ?_, ?_, h4, h5⟩
    · intro l hl
      simp only [List.mem_append, List.mem_singleton] at hl ⊢
      rcases hl with hl | rfl
      · have := h1 l hl
        omega
      · simp
    · intro l hl hty
      simp only [List.mem_append, List.mem_singleton] at hl
      rcases hl with hl | rfl
      · exact h2 l hl hty
      · cases hty
    · intro l hl hty
      simp only [List.mem_append, List.mem_singleton] at hl
      rcases hl with hl | rfl
      · exact h3 l hl hty
      · exact ⟨rfl, rfl⟩
  | domContentLoaded =>
    rw [step_domContentLoaded h]
    exact wellFormed_iterate_setupResult h _
  | click i =>
    rw [step_click h.2.1]
    obtain ⟨h1, h2, h3, h4, h5⟩ := h
    obtain ⟨_, f2, f3, _, f5, _, f7⟩ := performDefault_frame
      { s with alerts := s.alerts ++ (clickPathCodes s i).filterMap handlerMsg }
      (activationOf s.document i)
    unfold WellFormed
    rw [f2, f3, f5, f7]
    refine ⟨h1, h2, h3, ?_, h5⟩
    intro a ha
    simp only [List.mem_append, List.mem_filterMap] at ha
    rcases ha with ha | ⟨c, _, hc⟩
    · exact h4 a ha
    · exact handlerMsg_mem hc

theorem runEvents_append (s : PageState) (tr : List Event) (e : Event) :
    runEvents s (tr ++ [e]) = step (runEvents s tr) e := by
  simp [runEvents, List.foldl_append]

theorem wellFormed_runEvents {s : PageState} (h : WellFormed s) (tr : List Event) :
    WellFormed (runEvents s tr) := by
  induction tr generalizing s with
  | nil => exact h
  | cons e rest ih => exact ih (wellFormed_step h e)


/-! ## Sequences of clicks -/

theorem alerts_step_click {s : PageState}
    (h : ∀ l ∈ s.listeners, l.type = .click → l.callback.code ≠ .setup) (i : Nat) :
    (step s (.click i)).alerts = s.alerts ++ (clickPathCodes s i).filterMap handlerMsg := by
  rw [step_click h i, (performDefault_frame _ _).2.2.2.2.1]

theorem clickAlerts_congr {s t : PageState} (hl : t.listeners = s.listeners)
    (hd : t.document = s.document) (cs : List Nat) :
    clickAlerts t cs = clickAlerts s cs := by
  induction cs with
  | nil => rfl
  | cons c rest ih =>
    simp only [clickAlerts, clickPathCodes, hd, codesAlong_congr hl, ih]

theorem clickAll_cons (s : PageState) (c : Nat) (cs : List Nat) :
    clickAll s (c :: cs) = clickAll (step s (.click c)) cs := by
  simp [clickAll, runEvents]

theorem step_click_frame {s : PageState}
    (h : ∀ l ∈ s.listeners, l.type = .click → l.callback.code ≠ .setup) (i : Nat) :
    (step s (.click i)).document = s.document ∧
      (step s (.click i)).listeners = s.listeners ∧
      (step s (.click i)).nextFn = s.nextFn ∧
      (step s (.click i)).console = s.console ∧
      (step s (.click i)).storage = s.storage ∧
      (step s (.click i)).uncaught = s.uncaught := by
  rw [step_click h i]
  obtain ⟨f1, f2, f3, f4, _, f6, f7⟩ := performDefault_frame
    { s with alerts := s.alerts ++ (clickPathCodes s i).filterMap handlerMsg }
    (activationOf s.document i)
  exact ⟨f1, f2, f3, f4, f6, f7⟩

theorem clickAll_frame {s : PageState}
    (h : ∀ l ∈ s.listeners, l.type = .click → l.callback.code ≠ .setup) (cs : List Nat) :
    (clickAll s cs).document = s.document ∧
      (clickAll s cs).listeners = s.listeners ∧
      (clickAll s cs).storage = s.storage ∧
      (clickAll s cs).alerts = s.alerts ++ clickAlerts s cs := by
  induction cs generalizing s with
  | nil => simp [clickAll, runEvents, clickAlerts]
  | cons c rest ih =>
    obtain ⟨f1, f2, _, _, f6, _⟩ := step_click_frame h c
    have f5 := alerts_step_click h c
    have h1 : ∀ l ∈ (step s (.click c)).listeners, l.type = .click →
        l.callback.code ≠ .setup := by
      rw [f2]
      exact h
    obtain ⟨g1, g2, g3, g4⟩ := ih h1
    rw [clickAll_cons]
    refine ⟨g1.trans f1, g2.trans f2, g3.trans f6, ?_⟩
    rw [g4, f5, clickAlerts_congr f2 f1]
    simp only [clickAlerts, List.append_assoc]

theorem clickHandlers_setup_of_no_click {s : PageState}
    (hnone : ∀ l ∈ s.listeners, l.type ≠ .click) :
    (∀ l ∈ (setupResult s).listeners, l.type = .click → l.callback.code ≠ .setup) := by
  intro l hl hty
  simp only [setupResult, List.mem_append] at hl
  rcases hl with hl | hl
  · exact absurd hty (hnone l hl)
  · rcases (mem_setupListeners hl).2 with ⟨hc, _⟩ | ⟨hc, _⟩ <;> rw [hc] <;> decide

/-! ## Claims about one run of the setup body -/

/-- C1, counterexample: with an add-to-cart button inside the checkout
element no click handler is registered before the run, and after one run of
the setup body a click on the button shows two notifications, the
added-to-cart text and then the redirecting text of the enclosing
element. -/
theorem nested_add_to_cart_click_shows_two :
    (∀ l ∈ buttonInCheckoutPage.listeners, l.type ≠ .click) ∧
    (listenersOn (setupBody buttonInCheckoutPage).state (.node 1) .click).length = 1 ∧
    (step (setupBody buttonInCheckoutPage).state (.click 1)).alerts
      = [addedMsg, checkoutMsg] ∧
    (step (setupBody buttonInCheckoutPage).state (.click 1)).alerts
      ≠ (setupBody buttonInCheckoutPage).state.alerts ++ [addedMsg] := by
  decide

/-- C1, as the code behaves: on a page with no click handler registered
yet, one run of the setup body raises nothing, leaves the notifications
untouched, registers as many click handlers on `#add-to-cart` elements as
the document has such elements, exactly one on each of them, and a click on
any of them that is not nested inside an element with id `add-to-cart` or
`checkout` shows exactly one notification, the added-to-cart text. -/
theorem setup_binds_each_add_to_cart (s : PageState)
    (hnone : ∀ l ∈ s.listeners, l.type ≠ .click) :
    (setupBody s).thrown = none ∧
    (setupBody s).state.document = s.document ∧
    (setupBody s).state.alerts = s.alerts ∧
    ((setupBody s).state.listeners.filter
        fun l => l.type == .click && targetsAddToCart s.document l).length
      = s.document.countP isAddToCart ∧
    ∀ i e, s.document[i]? = some e → isAddToCart e = true →
      (listenersOn (setupBody s).state (.node i) .click).length = 1 ∧
      (standsAlone s.document i = true →
        (step (setupBody s).state (.click i)).alerts
          = (setupBody s).state.alerts ++ [addedMsg]) := by
  rw [setupBody_eq s (clickIdsFresh_of_no_click s hnone)]
  refine ⟨rfl, rfl, rfl, ?_, ?_⟩
  · have hold : s.listeners.filter
        (fun l => l.type == EventType.click && targetsAddToCart s.document l) = [] := by
      rw [List.filter_eq_nil_iff]
      intro l hl
      have := hnone l hl
      simp [this]
    simp only [setupResult, setupListeners, List.filter_append, hold, List.nil_append,
      filter_targetsAddToCart_fresh, filter_targetsAddToCart_checkout, List.append_nil,
      length_freshClickListeners, length_elementsWithId]
    rfl
  · intro i e he hid
    have hcodes := clickCodes_addToCart s hnone he hid
    constructor
    · have := congrArg List.length hcodes
      simpa [clickCodes] using this
    · intro halone
      rw [alerts_step_click (clickHandlers_setup_of_no_click hnone),
        clickPathCodes_setup_alone s hnone halone, hcodes]
      rfl

theorem setup_binds_each_add_to_cart_witness :
    (∀ l ∈ twoButtonPage.listeners, l.type ≠ .click) ∧
    standsAlone twoButtonPage.document 2 = true ∧
    (setupBody twoButtonPage).thrown = none ∧
    ((setupBody twoButtonPage).state.listeners.filter
        fun l => l.type == .click && targetsAddToCart twoButtonPage.document l).length = 2 ∧
    (listenersOn (setupBody twoButtonPage).state (.node 2) .click).length = 1 ∧
    (step (setupBody twoButtonPage).state (.click 2)).alerts = [addedMsg] :=
  have h := setup_binds_each_add_to_cart twoButtonPage (by decide)
  ⟨by decide, by decide, h.1, h.2.2.2.1,
    (h.2.2.2.2 2 ⟨some "add-to-cart", some 1, .nothing⟩ rfl rfl).1,
    (h.2.2.2.2 2 ⟨some "add-to-cart", some 1, .nothing⟩ rfl rfl).2 (by decide)⟩

/-- C2, counterexample: with the checkout button inside an add-to-cart
element `getElementById` finds the button, and after one run of the setup
body a click on it shows two notifications, the redirecting text and then
the added-to-cart text of the enclosing element. -/
theorem nested_checkout_click_shows_two :
    (∀ l ∈ checkoutInButtonPage.listeners, l.type ≠ .click) ∧
    getElementById checkoutInButtonPage.document "checkout" = some 1 ∧
    (step (setupBody checkoutInButtonPage).state (.click 1)).alerts
      = [checkoutMsg, addedMsg] ∧
    (step (setupBody checkoutInButtonPage).state (.click 1)).alerts
      ≠ (setupBody checkoutInButtonPage).state.alerts ++ [checkoutMsg] := by
  decide

/-- C2, as the code behaves: when `getElementById` finds a checkout element,
one run of the setup body on a page with no click handler registered yet
raises nothing and registers exactly one click handler on that element, the
only checkout handler in the table; when the element is not nested inside
an element with id `add-to-cart` or `checkout`, a click on it shows exactly
one notification, the redirecting-to-checkout text. -/
theorem setup_binds_checkout (s : PageState) (c : Nat)
    (hnone : ∀ l ∈ s.listeners, l.type ≠ .click)
    (hc : getElementById s.document "checkout" = some c) :
    (setupBody s).thrown = none ∧
    (setupBody s).state.alerts = s.alerts ∧
    (listenersOn (setupBody s).state (.node c) .click).length = 1 ∧
    ((setupBody s).state.listeners.filter
        fun l => l.type == .click && l.callback.code == .checkoutClick).length = 1 ∧
    (standsAlone s.document c = true →
      (step (setupBody s).state (.click c)).alerts
        = (setupBody s).state.alerts ++ [checkoutMsg]) := by
  rw [setupBody_eq s (clickIdsFresh_of_no_click s hnone)]
  obtain ⟨⟨e, he, hid⟩, _⟩ := getElementById_eq_some.mp hc
  have hcodes : clickCodes (setupResult s) c = [.checkoutClick] := by
    rw [clickCodes_setupResult, clickCodes_of_no_click s hnone,
      count_addToCart_of_checkout he (by simp [isCheckout, hid]), if_pos hc]
    rfl
  refine ⟨rfl, rfl, ?_, ?_, ?_⟩
  · have := congrArg List.length hcodes
    simpa [clickCodes] using this
  · have hold : s.listeners.filter
        (fun l => l.type == EventType.click && l.callback.code == FnCode.checkoutClick) = [] := by
      rw [List.filter_eq_nil_iff]
      intro l hl
      have := hnone l hl
      simp [this]
    have hfresh : (freshClickListeners .addToCartClick s.nextFn
          (elementsWithId s.document "add-to-cart")).filter
        (fun l => l.type == EventType.click && l.callback.code == FnCode.checkoutClick) = [] := by
      rw [List.filter_eq_nil_iff]
      intro l hl
      have := (mem_freshClickListeners hl).2.1
      simp [this]
    simp [setupResult, setupListeners, List.filter_append, hold, hfresh, checkoutListeners, hc,
      List.filter_cons]
  · intro halone
    rw [alerts_step_click (clickHandlers_setup_of_no_click hnone),
      clickPathCodes_setup_alone s hnone halone, hcodes]
    rfl

theorem setup_binds_checkout_witness :
    (∀ l ∈ shopPage.listeners, l.type ≠ .click) ∧
    getElementById shopPage.document "checkout" = some 3 ∧
    standsAlone shopPage.document 3 = true ∧
    (listenersOn (setupBody shopPage).state (.node 3) .click).length = 1 ∧
    (step (setupBody shopPage).state (.click 3)).alerts = [checkoutMsg] :=
  have h := setup_binds_checkout shopPage 3 (by decide) (by decide)
  ⟨by decide, by decide, by decide, h.2.2.1, h.2.2.2.2 (by decide)⟩

/-- C3: when no element carries the id `checkout`, one run of the setup body
on a page with no click handler registered yet raises nothing and registers
no checkout handler: every click handler in the table sits on an
`#add-to-cart` element and runs the add-to-cart code; when the page has no
`#add-to-cart` element either, the table is left as it was, and nothing
escapes to the error report. -/
theorem setup_without_checkout (s : PageState)
    (hnone : ∀ l ∈ s.listeners, l.type ≠ .click)
    (habsent : ∀ e ∈ s.document, isCheckout e = false) :
    (setupBody s).thrown = none ∧
    (reportUncaught (setupBody s)).uncaught = s.uncaught ∧
    (∀ l ∈ (setupBody s).state.listeners, l.type = .click →
      targetsAddToCart s.document l = true ∧ l.callback.code = .addToCartClick) ∧
    (∀ l ∈ (setupBody s).state.listeners, l.type = .click →
      l.callback.code ≠ .checkoutClick) ∧
    ((∀ e ∈ s.document, isAddToCart e = false) →
      (setupBody s).state.listeners = s.listeners) := by
  rw [setupBody_eq s (clickIdsFresh_of_no_click s hnone)]
  have hget : getElementById s.document "checkout" = none := by
    rw [getElementById_eq_none]
    intro e he hid
    have := habsent e he
    simp [isCheckout, hid] at this
  have hall : ∀ l ∈ (setupResult s).listeners, l.type = .click →
      targetsAddToCart s.document l = true ∧ l.callback.code = .addToCartClick := by
    intro l hl hty
    simp only [setupResult, List.mem_append] at hl
    rcases hl with hl | hl
    · exact absurd hty (hnone l hl)
    · rcases (mem_setupListeners hl).2 with ⟨h1, h2⟩ | ⟨_, c, _, h3⟩
      · exact ⟨h2, h1⟩
      · rw [hget] at h3
        cases h3
  refine ⟨rfl, rfl, hall, ?_, ?_⟩
  · intro l hl hty hcode
    have := (hall l hl hty).2
    rw [hcode] at this
    cases this
  · intro hzero
    have hempty : elementsWithId s.document "add-to-cart" = [] := by
      apply List.eq_nil_iff_forall_not_mem.mpr
      intro i hi
      obtain ⟨e, he, hid⟩ := mem_elementsWithId.mp hi
      have := hzero e (List.getElem?_mem he)
      simp [isAddToCart, hid] at this
    simp [setupResult, setupListeners, hempty, freshClickListeners, checkoutListeners, hget]

theorem setup_without_checkout_witness :
    (∀ l ∈ plainPage.listeners, l.type ≠ .click) ∧
    (∀ e ∈ plainPage.document, isCheckout e = false) ∧
    (setupBody plainPage).thrown = none ∧
    (setupBody plainPage).state.listeners = plainPage.listeners :=
  have h := setup_without_checkout plainPage (by decide) (by decide)
  ⟨by decide, by decide, h.1, h.2.2.2.2 (by decide)⟩

/-- C9, counterexample: with a second `checkout` element inside the first
one, the second has no click handler of its own after one run of the setup
body, yet a click on it shows the redirecting text, through the handler of
the enclosing first element. -/
theorem nested_later_checkout_click_notifies :
    (∀ l ∈ checkoutInCheckoutPage.listeners, l.type ≠ .click) ∧
    getElementById checkoutInCheckoutPage.document "checkout" = some 0 ∧
    listenersOn (setupBody checkoutInCheckoutPage).state (.node 1) .click = [] ∧
    (step (setupBody checkoutInCheckoutPage).state (.click 1)).alerts = [checkoutMsg] ∧
    step (setupBody checkoutInCheckoutPage).state (.click 1)
      ≠ (setupBody checkoutInCheckoutPage).state := by
  decide

/-- C9, as the code behaves: when several elements carry the id `checkout`,
one run of the setup body on a page with no click handler registered yet
puts the checkout handler on the first of them in document order only:
every other `checkout` element has no click handler of its own, and a click
on one that is not nested inside an element with id `add-to-cart` or
`checkout` shows nothing and leaves the handlers as they were; every
`add-to-cart` element has exactly one click handler, and all handlers
registered by the run are distinct function objects. -/
theorem setup_binds_first_checkout_only (s : PageState) (c : Nat) (ec : Element)
    (hnone : ∀ l ∈ s.listeners, l.type ≠ .click)
    (hc : s.document[c]? = some ec) (hcid : isCheckout ec = true)
    (hfirst : ∀ e ∈ s.document.take c, isCheckout e = false) :
    clickCodes (setupBody s).state c = [.checkoutClick] ∧
    (∀ j e, j ≠ c → s.document[j]? = some e → isCheckout e = true →
      listenersOn (setupBody s).state (.node j) .click = [] ∧
      (standsAlone s.document j = true →
        dispatchEvent (setupBody s).state (.node j) .click = (setupBody s).state ∧
        (step (setupBody s).state (.click j)).alerts = (setupBody s).state.alerts ∧
        (step (setupBody s).state (.click j)).listeners = (setupBody s).state.listeners)) ∧
    (∀ i e, s.document[i]? = some e → isAddToCart e = true →
      clickCodes (setupBody s).state i = [.addToCartClick]) ∧
    (((setupBody s).state.listeners.filter fun l => l.type == .click).map
      fun l => l.callback.fnId).Nodup := by
  rw [setupBody_eq s (clickIdsFresh_of_no_click s hnone)]
  have hget := getElementById_checkout_of_first hc hcid hfirst
  have hco := clickHandlers_setup_of_no_click hnone
  refine ⟨?_, ?_, ?_, ?_⟩
  · rw [clickCodes_setupResult, clickCodes_of_no_click s hnone,
      count_addToCart_of_checkout hc hcid, if_pos hget]
    rfl
  · intro j e hj he hid
    have hcodes : clickCodes (setupResult s) j = [] := by
      rw [clickCodes_setupResult, clickCodes_of_no_click s hnone,
        count_addToCart_of_checkout he hid, if_neg (by rw [hget]; simpa using Ne.symm hj)]
      rfl
    constructor
    · simpa [clickCodes] using hcodes
    · intro halone
      have hpath := clickPathCodes_setup_alone s hnone halone
      rw [hcodes] at hpath
      refine ⟨?_, ?_, ?_⟩
      · rw [dispatch_click _ _ hco, hpath]
        simp
      · rw [alerts_step_click hco, hpath]
        simp
      · exact (step_click_frame hco j).2.1
  · intro i e he hid
    exact clickCodes_addToCart s hnone he hid
  · have hold : s.listeners.filter (fun l => l.type == EventType.click) = [] := by
      rw [List.filter_eq_nil_iff]
      intro l hl
      have := hnone l hl
      simp [this]
    have hnew : (setupListeners s).filter (fun l => l.type == EventType.click)
        = setupListeners s := by
      rw [List.filter_eq_self]
      intro l hl
      simp [(mem_setupListeners hl).1]
    simp only [setupResult, List.filter_append, hold, hnew, List.nil_append,
      fnIds_setupListeners]
    exact List.nodup_range' _ _

theorem setup_binds_first_checkout_only_witness :
    (∀ l ∈ twoCheckoutPage.listeners, l.type ≠ .click) ∧
    standsAlone twoCheckoutPage.document 3 = true ∧
    clickCodes (setupBody twoCheckoutPage).state 1 = [.checkoutClick] ∧
    listenersOn (setupBody twoCheckoutPage).state (.node 3) .click = [] ∧
    dispatchEvent (setupBody twoCheckoutPage).state (.node 3) .click
      = (setupBody twoCheckoutPage).state ∧
    clickCodes (setupBody twoCheckoutPage).state 2 = [.addToCartClick] :=
  have h := setup_binds_first_checkout_only twoCheckoutPage 1
    ⟨some "checkout", none, .nothing⟩ (by decide) rfl rfl (by decide)
  ⟨by decide, by decide, h.1,
    (h.2.1 3 ⟨some "checkout", none, .nothing⟩ (by decide) rfl rfl).1,
    ((h.2.1 3 ⟨some "checkout", none, .nothing⟩ (by decide) rfl rfl).2 (by decide)).1,
    h.2.2.1 2 ⟨some "add-to-cart", none, .nothing⟩ rfl rfl⟩


/-! ## Click sequences after one run -/

theorem getElementById_checkout_of_unique {doc : List Element} {c : Nat} {e : Element}
    (hone : doc.countP isCheckout = 1) (he : doc[c]? = some e) (hid : isCheckout e = true) :
    getElementById doc "checkout" = some c := by
  have hlen : (elementsWithId doc "checkout").length = 1 := by
    rw [length_elementsWithId]
    exact hone
  have hmem : c ∈ elementsWithId doc "checkout" :=
    mem_elementsWithId.mpr ⟨e, he, by simpa [isCheckout] using hid⟩
  unfold getElementById
  obtain ⟨x, hx⟩ := List.length_eq_one.mp hlen
  rw [hx] at hmem ⊢
  simp only [List.mem_singleton] at hmem
  simp [hmem]

theorem clickAlerts_expected (s : PageState) (cs : List Nat)
    (hnone : ∀ l ∈ s.listeners, l.type ≠ .click)
    (hone : s.document.countP isCheckout = 1)
    (hcs : ∀ c ∈ cs, standsAlone s.document c = true ∧
      ∃ e, s.document[c]? = some e ∧ (isAddToCart e = true ∨ isCheckout e = true)) :
    clickAlerts (setupResult s) cs = cs.filterMap (expectedMsg s.document) ∧
      (cs.filterMap (expectedMsg s.document)).length = cs.length := by
  induction cs with
  | nil => exact ⟨rfl, rfl⟩
  | cons c rest ih =>
    obtain ⟨ih1, ih2⟩ := ih (fun c hc => hcs c (List.mem_cons_of_mem _ hc))
    obtain ⟨halone, e, he, hid⟩ := hcs c (List.mem_cons_self _ _)
    have hpath := clickPathCodes_setup_alone s hnone halone
    by_cases ha : isAddToCart e = true
    · have hcodes := clickCodes_addToCart s hnone he ha
      have hexp : expectedMsg s.document c = some addedMsg := by
        simp [expectedMsg, he, ha]
      simp [clickAlerts, hpath, hcodes, ih1, List.filterMap_cons, hexp, handlerMsg, ih2]
    · have hco : isCheckout e = true := hid.resolve_left ha
      have hget := getElementById_checkout_of_unique hone he hco
      have hcodes : clickCodes (setupResult s) c = [.checkoutClick] := by
        rw [clickCodes_setupResult, clickCodes_of_no_click s hnone,
          count_addToCart_of_checkout he hco, if_pos hget]
        rfl
      have hexp : expectedMsg s.document c = some checkoutMsg := by
        simp [expectedMsg, he, ha, hco]
      simp [clickAlerts, hpath, hcodes, ih1, List.filterMap_cons, hexp, handlerMsg, ih2]

/-- C6, counterexample: on the page with one add-to-cart element and one
checkout element, the second inside the first, two clicks after one run of
the setup body show three notifications: the click on the checkout element
also runs the handler of the enclosing add-to-cart element. -/
theorem nested_clicks_notify_more_than_once :
    (∀ l ∈ checkoutInButtonPage.listeners, l.type ≠ .click) ∧
    checkoutInButtonPage.document.countP isCheckout = 1 ∧
    [1, 0].map (expectedMsg checkoutInButtonPage.document)
      = [some checkoutMsg, some addedMsg] ∧
    (clickAll (setupBody checkoutInButtonPage).state [1, 0]).alerts
      = [checkoutMsg, addedMsg, addedMsg] ∧
    (clickAll (setupBody checkoutInButtonPage).state [1, 0]).alerts.length ≠ 2 := by
  decide

/-- C6, as the code behaves: on a page with one checkout element, after one
run of the setup body every sequence of clicks on add-to-cart elements and
on the checkout element, none of the clicked elements nested inside an
element with id `add-to-cart` or `checkout`, shows the notifications of the
clicked elements in click order: one added-to-cart text per click on an
add-to-cart element, one redirecting text per click on the checkout element,
as many notifications as clicks. -/
theorem clicks_notify_in_order (s : PageState) (cs : List Nat)
    (hnone : ∀ l ∈ s.listeners, l.type ≠ .click)
    (hone : s.document.countP isCheckout = 1)
    (hcs : ∀ c ∈ cs, standsAlone s.document c = true ∧
      ∃ e, s.document[c]? = some e ∧ (isAddToCart e = true ∨ isCheckout e = true)) :
    (clickAll (setupBody s).state cs).alerts
      = (setupBody s).state.alerts ++ cs.filterMap (expectedMsg s.document) ∧
    (cs.filterMap (expectedMsg s.document)).map some = cs.map (expectedMsg s.document) ∧
    (clickAll (setupBody s).state cs).alerts.length
      = (setupBody s).state.alerts.length + cs.length := by
  rw [setupBody_eq s (clickIdsFresh_of_no_click s hnone)]
  obtain ⟨h1, h2⟩ := clickAlerts_expected s cs hnone hone hcs
  rw [(clickAll_frame (clickHandlers_setup_of_no_click hnone) cs).2.2.2, h1]
  refine ⟨rfl, ?_, ?_⟩
  · clear h1 h2
    induction cs with
    | nil => rfl
    | cons c rest ih =>
      obtain ⟨_, e, he, hid⟩ := hcs c (List.mem_cons_self _ _)
      have ih := ih (fun c hc => hcs c (List.mem_cons_of_mem _ hc))
      by_cases ha : isAddToCart e = true
      · simp [List.filterMap_cons, expectedMsg, he, ha, ih]
      · have hco : isCheckout e = true := hid.resolve_left ha
        simp [List.filterMap_cons, expectedMsg, he, ha, hco, ih]
  · simp only [List.length_append, h2]

theorem clicks_notify_in_order_witness :
    (∀ l ∈ shopPage.listeners, l.type ≠ .click) ∧
    shopPage.document.countP isCheckout = 1 ∧
    (clickAll (setupBody shopPage).state [0, 3, 2, 2, 1]).alerts
      = [addedMsg, checkoutMsg, addedMsg, addedMsg, addedMsg] :=
  have h := clicks_notify_in_order shopPage [0, 3, 2, 2, 1] (by decide) (by decide)
    (by decide)
  ⟨by decide, by decide, h.1⟩

/-! ## Running the setup body twice -/

theorem setupBody_twice_eq (s : PageState) (hnone : ∀ l ∈ s.listeners, l.type ≠ .click) :
    setupBody (setupBody s).state = ⟨setupResult (setupResult s), none⟩ := by
  have hf := clickIdsFresh_of_no_click s hnone
  rw [setupBody_eq s hf]
  exact setupBody_eq _ (clickIdsFresh_setupResult s hf)

theorem clickCodes_setup_twice (s : PageState) (hnone : ∀ l ∈ s.listeners, l.type ≠ .click)
    (i : Nat) :
    clickCodes (setupResult (setupResult s)) i
      = clickCodes (setupResult s) i ++ clickCodes (setupResult s) i := by
  have hdoc : (setupResult s).document = s.document := rfl
  rw [clickCodes_setupResult (setupResult s), hdoc, clickCodes_setupResult s,
    clickCodes_of_no_click s hnone]
  simp only [List.nil_append, List.append_assoc]

theorem setupListeners_eq_nil_iff (s : PageState) :
    setupListeners s = [] ↔
      ∀ e ∈ s.document, isAddToCart e = false ∧ isCheckout e = false := by
  unfold setupListeners
  rw [List.append_eq_nil]
  constructor
  · rintro ⟨hf, hc⟩ e he
    constructor
    · have hlen := congrArg List.length hf
      rw [length_freshClickListeners, length_elementsWithId, List.length_nil,
        List.countP_eq_zero] at hlen
      have := hlen e he
      simpa [isAddToCart, hasId] using this
    · unfold checkoutListeners at hc
      cases hg : getElementById s.document "checkout" with
      | some c => rw [hg] at hc; cases hc
      | none =>
        have := getElementById_eq_none.mp hg e he
        simpa [isCheckout] using this
  · intro h
    constructor
    · have : elementsWithId s.document "add-to-cart" = [] := by
        apply List.eq_nil_iff_forall_not_mem.mpr
        intro i hi
        obtain ⟨e, he, hid⟩ := mem_elementsWithId.mp hi
        have := (h e (List.getElem?_mem he)).1
        simp [isAddToCart, hid] at this
      rw [this]
      rfl
    · have hg : getElementById s.document "checkout" = none := by
        rw [getElementById_eq_none]
        intro e he hid
        have := (h e he).2
        simp [isCheckout, hid] at this
      simp [checkoutListeners, hg]

/-- C4, counterexample: on the page with three add-to-cart buttons and a
checkout button a second run of the setup body changes the listener table;
the first button then carries two click handlers and one click on it shows
the notification twice. -/
theorem setup_twice_changes_table :
    (setupBody (setupBody shopPage).state).state.listeners
        ≠ (setupBody shopPage).state.listeners ∧
    (listenersOn (setupBody (setupBody shopPage).state).state (.node 0) .click).length = 2 ∧
    (step (setupBody (setupBody shopPage).state).state (.click 0)).alerts
      = [addedMsg, addedMsg] := by
  decide

/-- C4, as the code behaves: a second run of the setup body without a
reload raises nothing and registers a second handler wherever the first run
registered one.  Starting from a page with no click handler, the table after
two runs equals the table after one run only when no element carries the id
`add-to-cart` or `checkout`; every element carries twice the click handlers
of one run, two on each `#add-to-cart` element and on the element
`getElementById` finds for `checkout`, and one click on such an element that
is not nested inside an element with id `add-to-cart` or `checkout` shows
its notification twice. -/
theorem setup_twice_doubles_handlers (s : PageState)
    (hnone : ∀ l ∈ s.listeners, l.type ≠ .click) :
    (setupBody (setupBody s).state).thrown = none ∧
    ((setupBody (setupBody s).state).state.listeners = (setupBody s).state.listeners ↔
      ∀ e ∈ s.document, isAddToCart e = false ∧ isCheckout e = false) ∧
    (∀ i, (listenersOn (setupBody (setupBody s).state).state (.node i) .click).length
      = 2 * (listenersOn (setupBody s).state (.node i) .click).length) ∧
    (∀ i e, s.document[i]? = some e → isAddToCart e = true →
      (listenersOn (setupBody (setupBody s).state).state (.node i) .click).length = 2 ∧
      (standsAlone s.document i = true →
        (step (setupBody (setupBody s).state).state (.click i)).alerts
          = (setupBody (setupBody s).state).state.alerts ++ [addedMsg, addedMsg])) ∧
    (∀ c, getElementById s.document "checkout" = some c →
      (listenersOn (setupBody (setupBody s).state).state (.node c) .click).length = 2 ∧
      (standsAlone s.document c = true →
        (step (setupBody (setupBody s).state).state (.click c)).alerts
          = (setupBody (setupBody s).state).state.alerts ++ [checkoutMsg, checkoutMsg])) := by
  rw [setupBody_twice_eq s hnone, setupBody_eq s (clickIdsFresh_of_no_click s hnone)]
  have hlen : ∀ (t : PageState) (i : Nat),
      (listenersOn t (.node i) .click).length = (clickCodes t i).length := by
    intro t i
    simp [clickCodes]
  have hco1 := clickHandlers_setup_of_no_click hnone
  have hco2 : ∀ l ∈ (setupResult (setupResult s)).listeners, l.type = .click →
      l.callback.code ≠ .setup := by
    intro l hl hty
    have hl2 : l ∈ (setupResult s).listeners ∨ l ∈ setupListeners (setupResult s) :=
      List.mem_append.mp hl
    rcases hl2 with hl2 | hl2
    · exact hco1 l hl2 hty
    · rcases (mem_setupListeners hl2).2 with ⟨hc, _⟩ | ⟨hc, _⟩ <;> rw [hc] <;> decide
  have hpath : ∀ i, standsAlone s.document i = true →
      clickPathCodes (setupResult (setupResult s)) i
        = clickCodes (setupResult (setupResult s)) i := by
    intro i halone
    apply clickPathCodes_of_alone
    · intro a ha
      have hnil := clickCodes_unbound s hnone (plain_of_standsAlone halone ha)
      rw [clickCodes_setup_twice s hnone, hnil]
      rfl
    · rw [listenersOn_document_click_setupResult, listenersOn_document_click_setupResult,
        no_document_click s hnone]
  refine ⟨rfl, ?_, ?_, ?_, ?_⟩
  · have hdoc : (setupResult s).document = s.document := rfl
    rw [← hdoc, ← setupListeners_eq_nil_iff (setupResult s)]
    show (setupResult s).listeners ++ setupListeners (setupResult s) = (setupResult s).listeners
      ↔ _
    exact List.append_right_eq_self
  · intro i
    simp only [hlen, clickCodes_setup_twice s hnone, List.length_append]
    omega
  · intro i e he hid
    have hcodes := clickCodes_addToCart s hnone he hid
    have h2 := clickCodes_setup_twice s hnone i
    rw [hcodes] at h2
    constructor
    · rw [hlen, h2]
      rfl
    · intro halone
      rw [alerts_step_click hco2, hpath i halone, h2]
      rfl
  · intro c hc
    obtain ⟨⟨e, he, hid⟩, _⟩ := getElementById_eq_some.mp hc
    have hcodes : clickCodes (setupResult s) c = [.checkoutClick] := by
      rw [clickCodes_setupResult, clickCodes_of_no_click s hnone,
        count_addToCart_of_checkout he (by simp [isCheckout, hid]), if_pos hc]
      rfl
    have h2 := clickCodes_setup_twice s hnone c
    rw [hcodes] at h2
    constructor
    · rw [hlen, h2]
      rfl
    · intro halone
      rw [alerts_step_click hco2, hpath c halone, h2]
      rfl

theorem setup_twice_doubles_handlers_witness :
    (∀ l ∈ twoCheckoutPage.listeners, l.type ≠ .click) ∧
    (setupBody (setupBody twoCheckoutPage).state).state.listeners
      ≠ (setupBody twoCheckoutPage).state.listeners ∧
    (listenersOn (setupBody (setupBody twoCheckoutPage).state).state (.node 2) .click).length
      = 2 ∧
    (step (setupBody (setupBody twoCheckoutPage).state).state (.click 1)).alerts
      = [checkoutMsg, checkoutMsg] :=
  have h := setup_twice_doubles_handlers twoCheckoutPage (by decide)
  ⟨by decide, fun heq => absurd (h.2.1.mp heq) (by decide),
    (h.2.2.2.1 2 ⟨some "add-to-cart", none, .nothing⟩ rfl rfl).1,
    (h.2.2.2.2 1 (by decide)).2 (by decide)⟩


/-! ## Clicks and the page state -/

/-- C5, counterexample: on a page whose checkout control is a link and whose
add-to-cart control submits a form, after setup a click on the link shows
its notification and then changes the location, and a click on the submit
control sends a request: the handlers cancel no default action. -/
theorem link_click_navigates :
    (step linkPage (.click 0)).alerts = [checkoutMsg] ∧
    (step linkPage (.click 0)).location ≠ linkPage.location ∧
    (step linkPage (.click 1)).alerts = [addedMsg] ∧
    (step linkPage (.click 1)).requests ≠ linkPage.requests := by
  decide

/-- C5, as the code behaves: in every state a page can reach, the dispatch
of a click changes nothing but the list of notifications shown, to which it
adds texts among the two fixed ones.  Activating an element leaves the
elements, the listener table, the storage and the console as they were; the
location and the requests change only through the default action of the
activated element, which follows the dispatch, so where there is none the
state after the click is the state before with the notifications added.
The notifications a click adds are the same however many clicks came
before. -/
theorem click_handlers_are_stateless (doc : List Element) (tr : List Event) (i : Nat) :
    ∃ out : List String,
      (∀ m ∈ out, m = addedMsg ∨ m = checkoutMsg) ∧
      dispatchEvent (runEvents (loadPage doc) tr) (.node i) .click
        = { runEvents (loadPage doc) tr with
            alerts := (runEvents (loadPage doc) tr).alerts ++ out } ∧
      step (runEvents (loadPage doc) tr) (.click i)
        = performDefault
            { runEvents (loadPage doc) tr with
              alerts := (runEvents (loadPage doc) tr).alerts ++ out }
            (activationOf (runEvents (loadPage doc) tr).document i) ∧
      (activationOf (runEvents (loadPage doc) tr).document i = .nothing →
        step (runEvents (loadPage doc) tr) (.click i)
          = { runEvents (loadPage doc) tr with
              alerts := (runEvents (loadPage doc) tr).alerts ++ out }) ∧
      (step (runEvents (loadPage doc) tr) (.click i)).document
        = (runEvents (loadPage doc) tr).document ∧
      (step (runEvents (loadPage doc) tr) (.click i)).listeners
        = (runEvents (loadPage doc) tr).listeners ∧
      (step (runEvents (loadPage doc) tr) (.click i)).storage
        = (runEvents (loadPage doc) tr).storage ∧
      (step (runEvents (loadPage doc) tr) (.click i)).console
        = (runEvents (loadPage doc) tr).console ∧
      ∀ cs : List Nat,
        (step (clickAll (runEvents (loadPage doc) tr) cs) (.click i)).alerts
          = (clickAll (runEvents (loadPage doc) tr) cs).alerts ++ out ∧
        (step (clickAll (runEvents (loadPage doc) tr) cs) (.click i)).listeners
          = (runEvents (loadPage doc) tr).listeners ∧
        (step (clickAll (runEvents (loadPage doc) tr) cs) (.click i)).document
          = (runEvents (loadPage doc) tr).document := by
  have hwf := wellFormed_runEvents (wellFormed_loadPage doc) tr
  generalize runEvents (loadPage doc) tr = s at hwf
  have hco := hwf.2.1
  obtain ⟨f1, f2, _, f4, f5, _⟩ := step_click_frame hco i
  refine ⟨(clickPathCodes s i).filterMap handlerMsg, ?_, dispatch_click s i hco,
    step_click hco i, ?_, f1, f2, f5, f4, ?_⟩
  · intro m hm
    obtain ⟨c, _, hc⟩ := List.mem_filterMap.mp hm
    exact handlerMsg_mem hc
  · intro hact
    rw [step_click hco i, hact]
    rfl
  · intro cs
    obtain ⟨g1, g2, _, _⟩ := clickAll_frame hco cs
    have hco2 : ∀ l ∈ (clickAll s cs).listeners, l.type = .click →
        l.callback.code ≠ .setup := by
      rw [g2]
      exact hco
    obtain ⟨k1, k2, _⟩ := step_click_frame hco2 i
    refine ⟨?_, k2.trans g2, k1.trans g1⟩
    rw [alerts_step_click hco2 i]
    simp only [clickPathCodes, g1, codesAlong_congr g2]

theorem click_handlers_are_stateless_witness :
    activationOf (runEvents (loadPage shopPage.document) ordinaryRun).document 3 = .nothing ∧
    ∃ out : List String,
      (∀ m ∈ out, m = addedMsg ∨ m = checkoutMsg) ∧
      step (runEvents (loadPage shopPage.document) ordinaryRun) (.click 3)
        = { runEvents (loadPage shopPage.document) ordinaryRun with
            alerts := (runEvents (loadPage shopPage.document) ordinaryRun).alerts ++ out } :=
  ⟨by decide,
    (click_handlers_are_stateless shopPage.document ordinaryRun 3).elim
      fun out h => ⟨out, h.1, h.2.2.2.1 (by decide)⟩⟩

/-! ## When the setup body runs -/

theorem setupRuns_setupResult (s : PageState) :
    setupRuns (setupResult s) = setupRuns s + 1 := by
  simp [setupRuns, setupResult, List.count_append]

theorem listenersOn_document_setupResult (s : PageState) :
    listenersOn (setupResult s) .document .DOMContentLoaded
      = listenersOn s .document .DOMContentLoaded := by
  unfold listenersOn
  simp only [setupResult, List.filter_append]
  have : (setupListeners s).filter
      (fun l => l.target == Target.document && l.type == EventType.DOMContentLoaded) = [] := by
    rw [List.filter_eq_nil_iff]
    intro l hl
    have := (mem_setupListeners hl).1
    simp [this]
  rw [this, List.append_nil]

theorem setupRuns_iterate (k : Nat) (s : PageState) :
    setupRuns (Nat.iterate setupResult k s) = setupRuns s + k := by
  induction k generalizing s with
  | zero => rfl
  | succ k ih =>
    rw [Function.iterate_succ_apply, ih, setupRuns_setupResult]
    omega

theorem listenersOn_document_iterate (k : Nat) (s : PageState) :
    listenersOn (Nat.iterate setupResult k s) .document .DOMContentLoaded
      = listenersOn s .document .DOMContentLoaded := by
  induction k generalizing s with
  | zero => rfl
  | succ k ih => rw [Function.iterate_succ_apply, ih, listenersOn_document_setupResult]

theorem run_counts (doc : List Element) (tr : List Event) :
    (listenersOn (runEvents (loadPage doc) tr) .document .DOMContentLoaded).length
        = tr.count .scriptEvaluated ∧
      setupRuns (runEvents (loadPage doc) tr)
        ≤ tr.count .scriptEvaluated * tr.count .domContentLoaded ∧
      (Event.domContentLoaded ∉ tr →
        (∀ l ∈ (runEvents (loadPage doc) tr).listeners, l.type ≠ .click) ∧
          setupRuns (runEvents (loadPage doc) tr) = 0) := by
  induction tr using List.reverseRecOn with
  | nil =>
    refine ⟨rfl, Nat.le_refl _, fun _ => ⟨?_, rfl⟩⟩
    intro l hl
    cases hl
  | append_singleton tr e ih =>
    have hwf := wellFormed_runEvents (wellFormed_loadPage doc) tr
    rw [runEvents_append]
    obtain ⟨ih1, ih2, ih3⟩ := ih
    generalize runEvents (loadPage doc) tr = s at hwf ih1 ih2 ih3
    cases e with
    | scriptEvaluated =>
      rw [step_scriptEvaluated hwf]
      refine ⟨?_, ?_, ?_⟩
      · simp only [listenersOn, List.filter_append, List.length_append, List.count_append]
        simp only [listenersOn] at ih1
        rw [ih1]
        simp [List.filter_cons]
      · simp only [List.count_append, List.count_singleton]
        simp only [setupRuns] at ih2 ⊢
        calc s.console.count loadedMsg
            ≤ tr.count .scriptEvaluated * tr.count .domContentLoaded := ih2
          _ ≤ (tr.count .scriptEvaluated + 1) * tr.count .domContentLoaded :=
            Nat.mul_le_mul_right _ (Nat.le_succ _)
          _ = _ := by simp
      · intro hno
        have hno' : Event.domContentLoaded ∉ tr := fun h => hno (List.mem_append_left _ h)
        obtain ⟨h1, h2⟩ := ih3 hno'
        refine ⟨?_, h2⟩
        intro l hl
        simp only [List.mem_append, List.mem_singleton] at hl
        rcases hl with hl | rfl
        · exact h1 l hl
        · simp
    | domContentLoaded =>
      rw [step_domContentLoaded hwf]
      refine ⟨?_, ?_, ?_⟩
      · rw [listenersOn_document_iterate, ih1]
        simp [List.count_append]
      · rw [setupRuns_iterate, ih1]
        simp only [List.count_append, List.count_singleton]
        calc setupRuns s + tr.count .scriptEvaluated
            ≤ tr.count .scriptEvaluated * tr.count .domContentLoaded
                + tr.count .scriptEvaluated := Nat.add_le_add_right ih2 _
          _ = _ := by simp [Nat.mul_add]
      · intro hno
        exact absurd (List.mem_append_right _ (List.mem_singleton_self _)) hno
    | click i =>
      obtain ⟨_, f2, _, f4, _, _⟩ := step_click_frame hwf.2.1 i
      refine ⟨?_, ?_, ?_⟩
      · simp only [listenersOn, f2] at ih1 ⊢
        rw [ih1]
        simp [List.count_append]
      · simp only [setupRuns, f4] at ih2 ⊢
        simpa [List.count_append] using ih2
      · intro hno
        have hno' : Event.domContentLoaded ∉ tr := fun h => hno (List.mem_append_left _ h)
        simp only [setupRuns, f2, f4]
        exact ih3 hno'

/-- C7: along a run of one page load, in which the script is evaluated at
most once and the browser dispatches `DOMContentLoaded` at most once,
evaluating the script leaves the click handlers of every element as they
were, no click handler exists and the setup body has not run as long as
`DOMContentLoaded` has not been dispatched, and the setup body has run at
most once; in any run it has run at most once per evaluation and dispatch. -/
theorem setup_runs_at_most_once (doc : List Element) (tr : List Event)
    (hscript : tr.count .scriptEvaluated ≤ 1)
    (hready : tr.count .domContentLoaded ≤ 1) :
    (∀ i, listenersOn (step (runEvents (loadPage doc) tr) .scriptEvaluated) (.node i) .click
      = listenersOn (runEvents (loadPage doc) tr) (.node i) .click) ∧
    (Event.domContentLoaded ∉ tr →
      (∀ l ∈ (runEvents (loadPage doc) tr).listeners, l.type ≠ .click) ∧
        setupRuns (runEvents (loadPage doc) tr) = 0) ∧
    setupRuns (runEvents (loadPage doc) tr)
      ≤ tr.count .scriptEvaluated * tr.count .domContentLoaded ∧
    setupRuns (runEvents (loadPage doc) tr) ≤ 1 := by
  obtain ⟨_, h2, h3⟩ := run_counts doc tr
  have hwf := wellFormed_runEvents (wellFormed_loadPage doc) tr
  refine ⟨?_, h3, h2, ?_⟩
  · intro i
    rw [step_scriptEvaluated hwf]
    simp [listenersOn, List.filter_append, List.filter_cons]
  · calc setupRuns (runEvents (loadPage doc) tr)
        ≤ tr.count .scriptEvaluated * tr.count .domContentLoaded := h2
      _ ≤ 1 * 1 := Nat.mul_le_mul hscript hready
      _ = 1 := rfl

theorem setup_runs_at_most_once_witness :
    ordinaryRun.count .scriptEvaluated ≤ 1 ∧
    ordinaryRun.count .domContentLoaded ≤ 1 ∧
    setupRuns (runEvents (loadPage shopPage.document) ordinaryRun) ≤ 1 ∧
    setupRuns (runEvents (loadPage shopPage.document) ordinaryRun) = 1 :=
  ⟨by decide, by decide,
    (setup_runs_at_most_once shopPage.document ordinaryRun (by decide) (by decide)).2.2.2,
    by decide⟩

/-! ## What the script shows and logs -/

theorem addEventListener_output (s : PageState) (t : Option Target) (type : EventType)
    (cb : Closure) :
    (addEventListener s t type cb).state.alerts = s.alerts ∧
      (addEventListener s t type cb).state.console = s.console := by
  unfold addEventListener
  cases t with
  | none => exact ⟨rfl, rfl⟩
  | some t =>
    simp only
    split <;> exact ⟨rfl, rfl⟩

theorem forEach_bindAddToCart_output (targets : List Nat) (s : PageState) :
    (forEach bindAddToCart targets s).state.alerts = s.alerts ∧
      (forEach bindAddToCart targets s).state.console = s.console := by
  induction targets generalizing s with
  | nil => exact ⟨rfl, rfl⟩
  | cons i rest ih =>
    have hb : (bindAddToCart i s).state.alerts = s.alerts ∧
        (bindAddToCart i s).state.console = s.console := by
      unfold bindAddToCart newFunction
      exact addEventListener_output _ _ _ _
    rw [forEach]
    unfold Completion.andThen
    split
    · obtain ⟨h1, h2⟩ := ih (bindAddToCart i s).state
      exact ⟨h1.trans hb.1, h2.trans hb.2⟩
    · exact hb

theorem setupBody_output (s : PageState) :
    (setupBody s).state.alerts = s.alerts ∧
      (setupBody s).state.console = s.console ++ [loadedMsg] := by
  unfold setupBody
  simp only
  have hf := forEach_bindAddToCart_output
    (querySelectorAll (consoleLog s loadedMsg).document "#add-to-cart") (consoleLog s loadedMsg)
  have hlog : (consoleLog s loadedMsg).alerts = s.alerts ∧
      (consoleLog s loadedMsg).console = s.console ++ [loadedMsg] := ⟨rfl, rfl⟩
  generalize forEach bindAddToCart
    (querySelectorAll (consoleLog s loadedMsg).document "#add-to-cart")
    (consoleLog s loadedMsg) = c at hf ⊢
  unfold Completion.andThen
  split
  · beta_reduce
    split
    · have ha := addEventListener_output (newFunction c.state .checkoutClick).2
        (Option.map Target.node (getElementById c.state.document "checkout")) .click
        (newFunction c.state .checkoutClick).1
      exact ⟨ha.1.trans (hf.1.trans hlog.1), ha.2.trans (hf.2.trans hlog.2)⟩
    · exact ⟨hf.1.trans hlog.1, hf.2.trans hlog.2⟩
  · exact ⟨hf.1.trans hlog.1, hf.2.trans hlog.2⟩

theorem alerts_iterate (k : Nat) (s : PageState) :
    (Nat.iterate setupResult k s).alerts = s.alerts := by
  induction k generalizing s with
  | zero => rfl
  | succ k ih =>
    rw [Function.iterate_succ_apply, ih]
    rfl

theorem alerts_without_click (doc : List Element) (tr : List Event)
    (h : ∀ i, Event.click i ∉ tr) : (runEvents (loadPage doc) tr).alerts = [] := by
  induction tr using List.reverseRecOn with
  | nil => rfl
  | append_singleton tr e ih =>
    have hwf := wellFormed_runEvents (wellFormed_loadPage doc) tr
    have ih := ih (fun i hi => h i (List.mem_append_left _ hi))
    rw [runEvents_append]
    cases e with
    | scriptEvaluated => rw [step_scriptEvaluated hwf]; exact ih
    | domContentLoaded => rw [step_domContentLoaded hwf, alerts_iterate]; exact ih
    | click i => exact absurd (List.mem_append_right _ (List.mem_singleton_self _)) (h i)

/-- C8: one run of the setup body shows no notification and writes exactly
one line to the console, the start-up text.  Along every run of a page the
notifications shown are the two fixed texts only, evaluating the script and
dispatching `DOMContentLoaded` show nothing, a run without clicks has shown
nothing, no error is reported and the location stays as it was. -/
theorem setup_shows_nothing_logs_once (s : PageState) (doc : List Element)
    (tr : List Event) :
    (setupBody s).state.alerts = s.alerts ∧
    (setupBody s).state.console = s.console ++ [loadedMsg] ∧
    (∀ a ∈ (runEvents (loadPage doc) tr).alerts, a = addedMsg ∨ a = checkoutMsg) ∧
    (step (runEvents (loadPage doc) tr) .scriptEvaluated).alerts
      = (runEvents (loadPage doc) tr).alerts ∧
    (step (runEvents (loadPage doc) tr) .domContentLoaded).alerts
      = (runEvents (loadPage doc) tr).alerts ∧
    ((∀ i, Event.click i ∉ tr) → (runEvents (loadPage doc) tr).alerts = []) ∧
    (runEvents (loadPage doc) tr).uncaught = [] := by
  have hwf := wellFormed_runEvents (wellFormed_loadPage doc) tr
  refine ⟨(setupBody_output s).1, (setupBody_output s).2, hwf.2.2.2.1, ?_, ?_,
    alerts_without_click doc tr, hwf.2.2.2.2⟩
  · rw [step_scriptEvaluated hwf]
  · rw [step_domContentLoaded hwf, alerts_iterate]

end MainJs
